import Mathlib

/-!
Verification of the text-parsing pipeline of the docx-to-markdown converter
(`src/app.py`).

Strings are modelled as lists of Unicode code points (`List Nat`), written
`PyStr`; `pyStr` injects Lean string literals.  Python string primitives
(`str.replace`, `str.strip`, `str.lower`, `str.split`, substring tests, and
the concrete regular expressions the source uses) are embedded as executable
functions on `PyStr`; each definition carries a comment pointing to the Python
source line it translates.  Regular expressions are specialised to the exact
patterns appearing in the source, with Python's leftmost / greedy / lazy
matching rules spelled out case by case.  `\w`, `\s` and `str.lower` are
modelled on ASCII, which covers every constant and example in play.

All recursion is structural; char-consuming scans that restart after a match
use a fuel argument bounded by the input length (always sufficient, and on
fuel exhaustion they return the remaining input unchanged), so every definition
evaluates by kernel reduction and concrete claims are settled by `decide`.
-/

namespace DocxParser

/-- Python strings as lists of code points. -/
abbrev PyStr := List Nat

/-- Code point of a character. -/
def ch (c : Char) : Nat := c.toNat

/-- Inject a Lean string literal as a `PyStr`. -/
def pyStr (s : String) : PyStr := s.data.map Char.toNat

/-- ASCII model of Python's `\s` (space, tab, newline, carriage return,
vertical tab, form feed). -/
def isSpaceN (n : Nat) : Bool :=
  decide (n = 32) || decide (n = 9) || decide (n = 10) || decide (n = 13) ||
  decide (n = 11) || decide (n = 12)

/-- ASCII digit. -/
def isDigitN (n : Nat) : Bool := decide (48 ≤ n) && decide (n ≤ 57)

/-- ASCII letter. -/
def isAlphaN (n : Nat) : Bool :=
  (decide (65 ≤ n) && decide (n ≤ 90)) || (decide (97 ≤ n) && decide (n ≤ 122))

/-- ASCII letter or digit. -/
def isAlnumN (n : Nat) : Bool := isAlphaN n || isDigitN n

/-- ASCII model of Python's `\w`: letter, digit or underscore. -/
def isWordN (n : Nat) : Bool := isAlphaN n || isDigitN n || decide (n = 95)

/-- ASCII model of `str.lower` on one code point. -/
def lowerN (n : Nat) : Nat := if 65 ≤ n ∧ n ≤ 90 then n + 32 else n

/-- `str.lower`. -/
def pyLower (l : PyStr) : PyStr := l.map lowerN

/-- `pat` is a prefix of `l` (Python `str.startswith`). -/
def strPre : PyStr → PyStr → Bool
  | [], _ => true
  | _ :: _, [] => false
  | a :: pr, b :: l => decide (a = b) && strPre pr l

/-- `pat` occurs as a contiguous substring of `l` (Python `pat in l`). -/
def strInfix (pat : PyStr) : PyStr → Bool
  | [] => strPre pat []
  | c :: rest => strPre pat (c :: rest) || strInfix pat rest

/-- `pat` is a suffix of `l` (Python `str.endswith`). -/
def strSuffix (pat l : PyStr) : Bool := strPre pat.reverse l.reverse

/-- Remove leading whitespace (`str.lstrip`). -/
def pyStripLeft (l : PyStr) : PyStr := l.dropWhile isSpaceN

/-- `str.strip`: drop whitespace from both ends. -/
def pyStrip (l : PyStr) : PyStr :=
  ((l.dropWhile isSpaceN).reverse.dropWhile isSpaceN).reverse

/-- `str.strip(c)` for a single character `q`: drop `q` from both ends. -/
def pyStripChar (q : Nat) (l : PyStr) : PyStr :=
  ((l.dropWhile (fun c => decide (c = q))).reverse.dropWhile
    (fun c => decide (c = q))).reverse

/-- Fuelled worker for `pyReplace`.  One unit of fuel is spent per character
of input consumed, so fuel `l.length` always suffices; on exhaustion the rest
of the input is returned unchanged. -/
def pyReplaceGo (pat repl : PyStr) : Nat → PyStr → PyStr
  | _, [] => []
  | 0, l => l
  | fuel + 1, c :: rest =>
    if pat ≠ [] ∧ strPre pat (c :: rest) = true then
      repl ++ pyReplaceGo pat repl fuel (List.drop (pat.length - 1) rest)
    else
      c :: pyReplaceGo pat repl fuel rest

/-- Python `str.replace(pat, repl)`: left-to-right, non-overlapping, the
replacement text is not rescanned.  (The source never calls it with an empty
pattern.) -/
def pyReplace (pat repl l : PyStr) : PyStr := pyReplaceGo pat repl l.length l

/-- Case-insensitive variant, for `re.sub` with `re.IGNORECASE` on a literal
pattern; `pat` is given lowercased. -/
def pyReplaceCIGo (pat repl : PyStr) : Nat → PyStr → PyStr
  | _, [] => []
  | 0, l => l
  | fuel + 1, c :: rest =>
    if pat ≠ [] ∧ strPre pat (pyLower ((c :: rest).take pat.length)) = true ∧
        pat.length ≤ rest.length + 1 then
      repl ++ pyReplaceCIGo pat repl fuel (List.drop (pat.length - 1) rest)
    else
      c :: pyReplaceCIGo pat repl fuel rest

/-- Case-insensitive `re.sub` of a literal pattern (pattern lowercased). -/
def pyReplaceCI (pat repl l : PyStr) : PyStr := pyReplaceCIGo pat repl l.length l

/-- Split `l` at the first occurrence of `t`: returns the part before and the
part after (the occurrence itself removed). -/
def splitFirst (t : Nat) : PyStr → Option (PyStr × PyStr)
  | [] => none
  | c :: rest =>
    if c = t then some ([], rest)
    else
      match splitFirst t rest with
      | some (a, b) => some (c :: a, b)
      | none => none

/-- Python `str.split(sep)` for a one-character separator: keeps empty
pieces, `"".split` gives `[""]`. -/
def pySplit (sep : Nat) : PyStr → List PyStr
  | [] => [[]]
  | c :: rest =>
    if c = sep then [] :: pySplit sep rest
    else
      match pySplit sep rest with
      | p :: ps => (c :: p) :: ps
      | [] => [[c]]

/-- Fuelled worker for whitespace `str.split()` (no empty pieces). -/
def pySplitWsGo : Nat → PyStr → List PyStr
  | _, [] => []
  | 0, l => [l]
  | fuel + 1, c :: rest =>
    if isSpaceN c then pySplitWsGo fuel rest
    else
      (c :: rest.takeWhile (fun d => !isSpaceN d)) ::
        pySplitWsGo fuel (rest.dropWhile (fun d => !isSpaceN d))

/-- Python `str.split()` (split on whitespace runs, no empty pieces). -/
def pySplitWs (l : PyStr) : List PyStr := pySplitWsGo l.length l

/-- `" ".join` / `"\n".join`. -/
def pyJoin (sep : PyStr) (ls : List PyStr) : PyStr := List.intercalate sep ls

-- A quick sanity check of the primitives.
example : pyReplace (pyStr " - ") (pyStr " ") (pyStr "a - - b") = pyStr "a - b" := by decide
example : pyStrip (pyStr "  a b ") = pyStr "a b" := by decide
example : pySplit (ch '\n') (pyStr "a\n\nb") = [pyStr "a", [], pyStr "b"] := by decide
example : strInfix (pyStr "55") (pyStr "x555") = true := by decide
example : strSuffix (pyStr "page") (pyStr "home page") = true := by decide

/-!  Specialised regular expressions. -/

/-- Matcher for the tail of `\[([^\]]+)\]\(.*?\)` once a `[` has been seen:
`rest` is the input after the `[`.  The greedy `[^\]]+` forces the label to
run to the first `]` and be non-empty; the `]` must be followed directly by
`(`; the lazy `.*?` (which cannot cross a newline) runs to the first `)`.
Returns the captured label and the input remaining after the `)`. -/
def mdMatch (rest : PyStr) : Option (PyStr × PyStr) :=
  match splitFirst (ch ']') rest with
  | none => none
  | some (label, rest2) =>
    if label = [] then none
    else
      match rest2 with
      | [] => none
      | p :: rest3 =>
        if p = ch '(' then
          match splitFirst (ch ')') rest3 with
          | none => none
          | some (mid, rest4) =>
            if (ch '\n') ∈ mid then none else some (label, rest4)
        else none

/-- Fuelled worker for `subMdLink`; a failed match at a `[` advances one
character, exactly like `re` searching for the next match position. -/
def subMdLinkGo : Nat → PyStr → PyStr
  | _, [] => []
  | 0, l => l
  | fuel + 1, c :: rest =>
    if c = ch '[' then
      match mdMatch rest with
      | some (label, rest4) => label ++ subMdLinkGo fuel rest4
      | none => c :: subMdLinkGo fuel rest
    else c :: subMdLinkGo fuel rest

/-- `re.sub(r'\[([^\]]+)\]\(.*?\)', r'\1', text)`: replace every markdown
link with its label (app.py lines 71, 76, 243). -/
def subMdLink (l : PyStr) : PyStr := subMdLinkGo l.length l

/-- Fuelled worker for `removeBrackets`. -/
def removeBracketsGo : Nat → PyStr → PyStr
  | _, [] => []
  | 0, l => l
  | fuel + 1, c :: rest =>
    if c = ch '[' then
      match splitFirst (ch ']') rest with
      | some (_, after) => removeBracketsGo fuel after
      | none => c :: removeBracketsGo fuel rest
    else c :: removeBracketsGo fuel rest

/-- `re.sub(r'\[.*?\]', '', text)`: delete every lazily-bracketed segment
(app.py line 177). -/
def removeBrackets (l : PyStr) : PyStr := removeBracketsGo l.length l

/-- Find the first case-insensitive occurrence of `pat` (given lowercased)
in `l`; return the remainder of `l` after that occurrence. -/
def findCIAfter (pat : PyStr) : PyStr → Option PyStr
  | [] => none
  | c :: rest =>
    if strPre pat (pyLower ((c :: rest).take pat.length)) = true ∧
        pat.length ≤ rest.length + 1 then
      some ((c :: rest).drop pat.length)
    else findCIAfter pat rest

/-- Matcher for `\[.*?promo.*?\]` (IGNORECASE) after a `[` has been seen: the
first `promo` (case-insensitive) anywhere after the `[`, then the first `]`
after it.  If the first `promo` has no `]` after it, no later one does
either, so the whole match at this `[` fails.  Returns the remainder after
the closing `]`. -/
def promoTagMatch (rest : PyStr) : Option PyStr :=
  match findCIAfter (pyStr "promo") rest with
  | none => none
  | some afterPromo =>
    match splitFirst (ch ']') afterPromo with
    | some (_, after) => some after
    | none => none

/-- Fuelled worker for `removePromoTags`. -/
def removePromoTagsGo : Nat → PyStr → PyStr
  | _, [] => []
  | 0, l => l
  | fuel + 1, c :: rest =>
    if c = ch '[' then
      match promoTagMatch rest with
      | some after => removePromoTagsGo fuel after
      | none => c :: removePromoTagsGo fuel rest
    else c :: removePromoTagsGo fuel rest

/-- `re.sub(r'\[.*?promo.*?\]', '', stripped, flags=re.IGNORECASE)`
(app.py line 375). -/
def removePromoTags (l : PyStr) : PyStr := removePromoTagsGo l.length l

/-- Fuelled worker for `collapseWs`. -/
def collapseWsGo : Nat → PyStr → PyStr
  | _, [] => []
  | 0, l => l
  | fuel + 1, c :: rest =>
    if isSpaceN c then ch '-' :: collapseWsGo fuel (rest.dropWhile isSpaceN)
    else c :: collapseWsGo fuel rest

/-- `re.sub(r'[\s]+', '-', text)`: collapse every whitespace run to a single
hyphen (app.py line 89). -/
def collapseWs (l : PyStr) : PyStr := collapseWsGo l.length l

/-!  Utility functions of app.py section 3. -/

/-- `clean_markdown_link` (app.py lines 70-73): strip markdown links, then
remove backslashes and angle brackets, then strip. -/
def clean_markdown_link (text : PyStr) : PyStr :=
  pyStrip (pyReplace (pyStr ">") [] (pyReplace (pyStr "<") []
    (pyReplace (pyStr "\\") [] (subMdLink text))))

/-- The leading/trailing decoration class `[\s*_\-+\.]` of `clean_nav_text`
(app.py lines 78-79). -/
def navClassN (n : Nat) : Bool :=
  isSpaceN n || decide (n = ch '*') || decide (n = ch '_') ||
  decide (n = ch '-') || decide (n = ch '+') || decide (n = ch '.')

/-- `re.sub(r'^[\s*_\-+\.]+', '', text)`. -/
def dropNavLead (l : PyStr) : PyStr := l.dropWhile navClassN

/-- `re.sub(r'[\s*_\-+\.]+$', '', text)`. -/
def dropNavTrail (l : PyStr) : PyStr := (l.reverse.dropWhile navClassN).reverse

/-- `clean_nav_text` (app.py lines 75-82): strip markdown links, remove
braces, strip leading/trailing decoration characters, remove `#` and `**`,
strip whitespace. -/
def clean_nav_text (text : PyStr) : PyStr :=
  pyStrip (pyReplace (pyStr "**") [] (pyReplace (pyStr "#") []
    (dropNavTrail (dropNavLead
      (pyReplace (pyStr "\x7d") [] (pyReplace (pyStr "\x7b") [] (subMdLink text)))))))

/-- The character class kept by `re.sub(r'[^\w\s-]', '', text)`. -/
def keepKebabN (n : Nat) : Bool := isWordN n || isSpaceN n || decide (n = ch '-')

/-- `to_kebab_case` (app.py lines 84-89): `clean_nav_text`, replace `' - '`
by `' '`, remove `|`, delete everything outside `[\w\s-]`, strip, lowercase,
collapse whitespace runs to hyphens. -/
def to_kebab_case (text : PyStr) : PyStr :=
  collapseWs (pyLower (pyStrip
    ((pyReplace (pyStr "|") []
      (pyReplace (pyStr " - ") (pyStr " ") (clean_nav_text text))).filter keepKebabN)))

/-- `EXCLUDED_KEYWORDS` (app.py lines 18-24). -/
def EXCLUDED_KEYWORDS : List PyStr :=
  [pyStr "00_ignore", pyStr "mockup pages required", pyStr "global sections",
   pyStr "inside page components", pyStr "optional specialty pages",
   pyStr "header", pyStr "footer", pyStr "badges", pyStr "navigation",
   pyStr "inside form", pyStr "financing box", pyStr "contact info",
   pyStr "variables", pyStr "meta description", pyStr "contact us today",
   pyStr "homepage", pyStr "promotions", pyStr "contact"]

/-- `DEFAULT_PHONE_NUMBER` (app.py line 27). -/
def DEFAULT_PHONE_NUMBER : PyStr := pyStr "555-555-5555"

/-- `START_MARKER` (app.py line 28). -/
def START_MARKER : PyStr := pyStr "Footer (All Pages)"

/-- `should_skip_page` (app.py lines 91-96): skip when the lowercased
stripped title contains an excluded keyword, or the stripped content is
shorter than 10 characters. -/
def should_skip_page (title content : PyStr) : Bool :=
  EXCLUDED_KEYWORDS.any (fun k => strInfix k (pyStrip (pyLower title))) ||
  decide ((pyStrip content).length < 10)

-- Sanity: C1's counterexample behaves as traced from the source.
example : to_kebab_case (pyStr "|-a") = pyStr "-a" := by decide
example : to_kebab_case (pyStr "-a") = pyStr "a" := by decide
example : to_kebab_case (pyStr "  Home Page ") = pyStr "home-page" := by decide
example : clean_nav_text (pyStr "# Home Page") = pyStr "Home Page" := by decide
example : subMdLink (pyStr "see [here](http://x) now") = pyStr "see here now" := by decide
example : should_skip_page (pyStr "Header Section") (pyStr "some long enough content") = true := by
  decide
example : should_skip_page (pyStr "???") (pyStr "some long content!") = false := by decide
example : to_kebab_case (pyStr "???") = [] := by decide

/-!  `extract_tag_value` (app.py lines 294-305). -/

/-- The bracketed literal `[tag]`. -/
def bracketTag (tag : PyStr) : PyStr := ch '[' :: (tag ++ [ch ']'])

/-- Search for the first case-insensitive occurrence of `tagB` (already
bracketed, lowercase) that is followed — after the lazy `.*?` — by some
non-space character; return the suffix of the line starting at that
character (the group `(\S.*)`, which runs greedily to the end of the line).
A tag occurrence with nothing but whitespace after it fails and the regex
engine moves on, which the recursion models by advancing one character. -/
def findTagRest (tagB : PyStr) : PyStr → Option PyStr
  | [] => none
  | c :: rest =>
    if strPre tagB (pyLower ((c :: rest).take tagB.length)) = true ∧
        tagB.length ≤ rest.length + 1 ∧
        ((c :: rest).drop tagB.length).dropWhile isSpaceN ≠ [] then
      some (((c :: rest).drop tagB.length).dropWhile isSpaceN)
    else findTagRest tagB rest

/-- Tail of `\[.*?\]\((http[^)]+)\)` after the lazy `.*?` region following a
`[`: try each `]` in order (the lazy part may cross earlier `]`s when
backtracking); the `]` must be followed by `(http`, then the greedy
`[^)]+` runs to the first `)` and must be non-empty. -/
def mdUrlAfterBracket : PyStr → Option PyStr
  | [] => none
  | c :: rest =>
    if c = ch ']' then
      match rest with
      | p :: r2 =>
        if p = ch '(' ∧ strPre (pyStr "http") r2 = true then
          match splitFirst (ch ')') (r2.drop 4) with
          | some (mid, _) =>
            if mid ≠ [] then some (pyStr "http" ++ mid) else mdUrlAfterBracket rest
          | none => mdUrlAfterBracket rest
        else mdUrlAfterBracket rest
      | [] => none
    else mdUrlAfterBracket rest

/-- `re.search(r'\[.*?\]\((http[^)]+)\)', raw_val)`: first markdown link
whose target starts with `http`; returns the captured URL. -/
def mdLinkUrl : PyStr → Option PyStr
  | [] => none
  | c :: rest =>
    if c = ch '[' then
      match mdUrlAfterBracket rest with
      | some u => some u
      | none => mdLinkUrl rest
    else mdLinkUrl rest

/-- Characters allowed in the body of a bare URL: `[^\s<>")\]]`. -/
def urlBodyN (n : Nat) : Bool :=
  !isSpaceN n && !decide (n = ch '<') && !decide (n = ch '>') &&
  !decide (n = ch '"') && !decide (n = ch ')') && !decide (n = ch ']')

/-- Try to match `https?://[^\s<>")\]]+` at the head of `l` (greedy `s?`
first, then without the `s`; the body is the maximal allowed run and must be
non-empty). -/
def checkHttpUrl (l : PyStr) : Option PyStr :=
  if strPre (pyStr "https://") l = true then
    if (l.drop 8).takeWhile urlBodyN ≠ [] then
      some (pyStr "https://" ++ (l.drop 8).takeWhile urlBodyN)
    else none
  else if strPre (pyStr "http://") l = true then
    if (l.drop 7).takeWhile urlBodyN ≠ [] then
      some (pyStr "http://" ++ (l.drop 7).takeWhile urlBodyN)
    else none
  else none

/-- `re.search(r'(https?://[^\s<>")\]]+)', raw_val)`: leftmost bare URL. -/
def bareUrl : PyStr → Option PyStr
  | [] => none
  | c :: rest =>
    match checkHttpUrl (c :: rest) with
    | some u => some u
    | none => bareUrl rest

/-- `extract_tag_value(line, tag_name, extract_url)` (app.py lines 294-305):
searched on the line with backslashes removed; with `extract_url` the
embedded markdown-link URL is preferred, then a bare URL, else the cleaned
display text. -/
def extract_tag_value (line tag : PyStr) (extract_url : Bool) : Option PyStr :=
  match findTagRest (bracketTag tag) (pyReplace (pyStr "\\") [] line) with
  | none => none
  | some suffix =>
    let raw_val := pyStrip suffix
    if extract_url then
      match mdLinkUrl raw_val with
      | some u => some u
      | none =>
        match bareUrl raw_val with
        | some u => some u
        | none => some (clean_markdown_link raw_val)
    else some (clean_markdown_link raw_val)

example : extract_tag_value (pyStr "[cta] Call 555-555-5555 now") (pyStr "cta") false =
    some (pyStr "Call 555-555-5555 now") := by decide
example : extract_tag_value (pyStr "[Hero Image] kitchen remodel") (pyStr "hero image") true =
    some (pyStr "kitchen remodel") := by decide
example : extract_tag_value (pyStr "[hero image] [pic](http://a.b/c.jpg)") (pyStr "hero image")
    true = some (pyStr "http://a.b/c.jpg") := by decide
example : extract_tag_value (pyStr "no tag here") (pyStr "cta") false = none := by decide

/-!  CTA classification (app.py lines 379-390). -/

/-- One CTA record, as assembled at app.py line 389 (`type` is always the
literal `button-1`; `reverse` is the string `'true'` or `'false'`). -/
structure CTA where
  text : PyStr
  link : PyStr
  icon : PyStr
  ctype : PyStr
  scheme : PyStr
  reverse : PyStr
  deriving DecidableEq, Repr

/-- Three digits at the head. -/
def threeDigits : PyStr → Bool
  | a :: b :: c :: _ => isDigitN a && isDigitN b && isDigitN c
  | _ => false

/-- The separator class `[-.\s]`. -/
def phoneSepN (n : Nat) : Bool :=
  decide (n = ch '-') || decide (n = ch '.') || isSpaceN n

/-- Match `\d{3}[-.\s]?\d{3}` at the head of `l`. -/
def phoneShapeAt (l : PyStr) : Bool :=
  match l with
  | a :: b :: c :: rest =>
    isDigitN a && isDigitN b && isDigitN c &&
      (threeDigits rest ||
        (match rest with
         | s :: r2 => phoneSepN s && threeDigits r2
         | [] => false))
  | _ => false

/-- `re.search(r'\d{3}[-.\s]?\d{3}', cta_text)` (app.py line 387). -/
def hasPhoneShape : PyStr → Bool
  | [] => false
  | c :: rest => phoneShapeAt (c :: rest) || hasPhoneShape rest

/-- The phone CTA of app.py line 384. -/
def ctaPhone : CTA :=
  ⟨pyStr "\x7b\x7b site.phone \x7d\x7d", pyStr "tel:\x7b\x7b site.phone \x7d\x7d",
   pyStr "phone", pyStr "button-1", pyStr "accent", pyStr "false"⟩

/-- CTA classification of an extracted, cleaned CTA text (app.py lines
383-388): if it contains the default phone number, the full phone CTA; else
start from the contact CTA and, when a phone-shaped digit sequence occurs,
override link/icon/scheme/reverse (the display text keeps the raw text). -/
def cta_of_text (cta_text : PyStr) : CTA :=
  if strInfix DEFAULT_PHONE_NUMBER cta_text = true then ctaPhone
  else if hasPhoneShape cta_text = true then
    ⟨cta_text, pyStr "tel:\x7b\x7b site.phone \x7d\x7d", pyStr "phone",
     pyStr "button-1", pyStr "accent", pyStr "false"⟩
  else
    ⟨cta_text, pyStr "\x7b\x7b site.contact_page \x7d\x7d", pyStr "mark_email_unread",
     pyStr "button-1", pyStr "primary1", pyStr "true"⟩

example : cta_of_text (pyStr "Call 555-555-5555 now") = ctaPhone := by decide
example : (cta_of_text (pyStr "Get a free quote")).link =
    pyStr "\x7b\x7b site.contact_page \x7d\x7d" := by decide
example : (cta_of_text (pyStr "Call 123-456 today")).link =
    pyStr "tel:\x7b\x7b site.phone \x7d\x7d" := by decide
example : (cta_of_text (pyStr "Call 123-456 today")).text = pyStr "Call 123-456 today" := by
  decide

/-!  The page content parser, `parse_page_content` (app.py lines 307-455).
The assembled front-matter string of lines 406-455 is a fixed template around
the fields of `PageData` and is not needed by any claim; the parse itself —
the whole line loop with its state and side effects — is embedded below. -/

/-- A service card (app.py line 345). -/
structure ServiceCard where
  title : PyStr
  slug : PyStr
  deriving DecidableEq, Repr

/-- The service box record (app.py line 331). -/
structure ServiceBox where
  heading : PyStr
  sub_heading : PyStr
  cards : List ServiceCard
  deriving DecidableEq, Repr

/-- One entry of the image queue (app.py line 366). -/
structure ImageTask where
  url : PyStr
  filename : PyStr
  deriving DecidableEq, Repr

/-- The `data` dictionary of app.py lines 312-315. -/
structure PageData where
  title : PyStr
  hero_image : PyStr
  subheader : PyStr
  ctas : List CTA
  promos : List PyStr
  body_lines : List PyStr
  deriving DecidableEq, Repr

/-- The full loop state of `parse_page_content`: the `data` dict, the
optional service box, the two mode flags and the (caller-shared) image
queue. -/
structure ParseState where
  data : PageData
  service_box : Option ServiceBox
  is_body_started : Bool
  is_service_box : Bool
  image_queue : List ImageTask
  deriving DecidableEq, Repr

/-- `clean_body_line` (app.py lines 290-292). -/
def clean_body_line (text : PyStr) : PyStr :=
  pyReplace (pyStr "\\]") (pyStr "]") (pyReplace (pyStr "\\[") (pyStr "[")
    (pyReplace (pyStr "\\_") (pyStr "_") (pyStrip text)))

/-- `stripped.lower().replace('\\', '')` (app.py line 326). -/
def line_lower_of (stripped : PyStr) : PyStr :=
  pyReplace (pyStr "\\") [] (pyLower stripped)

/-- `re.sub(r'^(#+)([^#\s])', r'\1 \2', cleaned)` guarded by the matching
`re.match` (app.py line 395): insert a space after a leading `#`-run that is
directly followed by a non-`#`, non-space character. -/
def heading_space_fix (l : PyStr) : PyStr :=
  match l.dropWhile (fun c => decide (c = ch '#')) with
  | r :: rest =>
    if l.takeWhile (fun c => decide (c = ch '#')) ≠ [] ∧ isSpaceN r = false then
      l.takeWhile (fun c => decide (c = ch '#')) ++ ch ' ' :: r :: rest
    else l
  | [] => l

/-- `re.match(r'^[\-\*]\s+', l)` (app.py lines 398, 401). -/
def isListMarker (l : PyStr) : Bool :=
  match l with
  | c :: d :: _ => (decide (c = ch '-') || decide (c = ch '*')) && isSpaceN d
  | _ => false

/-- `re.match(r'^\d+\.\s+', l)` (app.py lines 398, 401). -/
def isNumMarker (l : PyStr) : Bool :=
  match l.dropWhile isDigitN with
  | p :: s :: _ => !(l.takeWhile isDigitN).isEmpty && decide (p = ch '.') && isSpaceN s
  | _ => false

/-- `is_list` of app.py line 398. -/
def pyIsList (l : PyStr) : Bool := isListMarker l || isNumMarker l

/-- Python `lst and lst[-1] != ""` on the body-line list. -/
def lastIsNonBlank : List PyStr → Bool
  | [] => false
  | [x] => decide (x ≠ [])
  | _ :: y :: rest => lastIsNonBlank (y :: rest)

/-- Python truthiness of an optional string (`None` and `""` are falsy). -/
def optTruthy : Option PyStr → Bool
  | some v => decide (v ≠ [])
  | none => false

/-- Python `a or b` on optional strings. -/
def pyOrS (a b : Option PyStr) : Option PyStr := if optTruthy a = true then a else b

/-- Insertion-ordered dict write, last-write-wins in place. -/
def dictSet : List (PyStr × PyStr) → PyStr → PyStr → List (PyStr × PyStr)
  | [], k, v => [(k, v)]
  | (k0, v0) :: rest, k, v =>
    if k0 = k then (k0, v) :: rest else (k0, v0) :: dictSet rest k v

/-- Dict lookup (`k in m` / `m[k]`). -/
def dictGet? : List (PyStr × PyStr) → PyStr → Option PyStr
  | [], _ => none
  | (k0, v0) :: rest, k => if k0 = k then some v0 else dictGet? rest k

/-- The substring-fallback loop of app.py lines 362-365: the first entry, in
insertion order, whose key contains the value or is contained in it. -/
def dictFindSub? : List (PyStr × PyStr) → PyStr → Option (PyStr × PyStr)
  | [], _ => none
  | (k0, v0) :: rest, u =>
    if strInfix u k0 || strInfix k0 u then some (k0, v0) else dictFindSub? rest u

/-- The hyperlink-table lookup of app.py lines 360-365: exact key first,
then substring match either way; on failure the value itself. -/
def resolve_lookup (m : List (PyStr × PyStr)) (u : PyStr) : PyStr :=
  match dictGet? m u with
  | some v => v
  | none =>
    match dictFindSub? m u with
    | some kv => kv.2
    | none => u

/-- The hero-image URL resolution of app.py lines 358-365: strip the
extracted value; if it does not start with `http` (or `https`), resolve it
through the hyperlink table. -/
def hero_final_url (m : List (PyStr × PyStr)) (text_val : PyStr) : PyStr :=
  let final_url := pyStrip text_val
  if strPre (pyStr "http") final_url || strPre (pyStr "https") final_url then final_url
  else resolve_lookup m final_url

/-- `val.replace('{','').replace('}','').strip().replace('**','')`
(app.py line 382). -/
def cta_text_of (val : PyStr) : PyStr :=
  pyReplace (pyStr "**") [] (pyStrip (pyReplace (pyStr "\x7d") []
    (pyReplace (pyStr "\x7b") [] val)))

/-- One line inside service-box mode (app.py lines 338-346): a `[p]` line
sets the sub-heading; a bracket-free line becomes a card; everything else is
ignored. -/
def service_line_step (st : ParseState) (stripped line_lower : PyStr) : ParseState :=
  if strInfix (pyStr "[p]") line_lower = true then
    { st with service_box := st.service_box.map (fun sb =>
        { sb with sub_heading := pyStrip (pyReplaceCI (pyStr "[p]") [] stripped) }) }
  else if (ch '[') ∈ stripped then st
  else
    { st with service_box := st.service_box.map (fun sb =>
        { sb with cards := sb.cards ++
          [⟨clean_body_line stripped, to_kebab_case (clean_body_line stripped)⟩] }) }

/-- The generic body handling of app.py lines 394-404: clean the line, fix
heading spacing, insert a blank separator before a heading and between a
list line and a non-list line (each only when the previous body line is
non-blank), then append the cleaned line. -/
def bodyStep (st : ParseState) (stripped : PyStr) : ParseState :=
  let cleaned := heading_space_fix (clean_body_line stripped)
  let st1 :=
    if strPre (pyStr "#") cleaned && lastIsNonBlank st.data.body_lines then
      { st with data := { st.data with body_lines := st.data.body_lines ++ [[]] } }
    else st
  let st2 :=
    if lastIsNonBlank st1.data.body_lines &&
        !(pyIsList cleaned && pyIsList (st1.data.body_lines.getLastD [])) &&
        !strPre (pyStr "#") cleaned then
      { st1 with data := { st1.data with body_lines := st1.data.body_lines ++ [[]] } }
    else st1
  { st2 with data := { st2.data with body_lines := st2.data.body_lines ++ [cleaned] } }

/-- The tag dispatch and body handling of app.py lines 355-404, reached once
the blank/service-box/pre-body gates have been passed.  The `##`-anywhere
check of line 392 is folded into the final branch because every tag branch
`continue`s before reaching it. -/
def parse_line_tags (hyperlink_map : List (PyStr × PyStr)) (page_slug : PyStr)
    (st : ParseState) (stripped line_lower : PyStr) : ParseState :=
  if strInfix (pyStr "[hero image]") line_lower = true then
    match extract_tag_value stripped (pyStr "hero image") true with
    | some text_val =>
      if text_val ≠ [] then
        { st with image_queue := st.image_queue ++
            [⟨hero_final_url hyperlink_map text_val, page_slug⟩] }
      else st
    | none => st
  else if strInfix (pyStr "[para_subheader]") line_lower = true then
    match extract_tag_value stripped (pyStr "para_subheader") false with
    | some val =>
      if val ≠ [] then
        { st with data := { st.data with subheader := pyReplace (pyStr "**") [] val } }
      else st
    | none => st
  else if strInfix (pyStr "[promo") line_lower || strInfix (pyStr "[hero_promo]") line_lower then
    { st with data := { st.data with promos := st.data.promos ++
        [pyReplace (pyStr "**") [] (clean_nav_text (removePromoTags stripped))] } }
  else if strInfix (pyStr "[cta") line_lower = true then
    match pyOrS (pyOrS (extract_tag_value stripped (pyStr "cta") false)
        (extract_tag_value stripped (pyStr "cta_1") false))
        (extract_tag_value stripped (pyStr "cta_2") false) with
    | some val =>
      if val ≠ [] then
        { st with data := { st.data with ctas := st.data.ctas ++
            [cta_of_text (cta_text_of val)] } }
      else st
    | none => st
  else
    bodyStep
      { st with is_body_started := st.is_body_started || strInfix (pyStr "##") stripped }
      stripped

/-- The service-box exit test of app.py lines 335-336: a `# `/`## ` heading
without the "how can we help" phrase clears the flag (the line then falls
through to the ordinary handling). -/
def service_exit_adjust (st : ParseState) (stripped line_lower : PyStr) : ParseState :=
  if st.is_service_box &&
      (strPre (pyStr "# ") stripped || strPre (pyStr "## ") stripped) &&
      !strInfix (pyStr "how can we help") line_lower then
    { st with is_service_box := false }
  else st

/-- One iteration of the `parse_page_content` line loop (app.py lines
320-404): blank-line handling, service-box entry/exit/handling, the pre-body
skip, then tag dispatch and body handling. -/
def parse_line (hyperlink_map : List (PyStr × PyStr)) (page_slug : PyStr)
    (st : ParseState) (line : PyStr) : ParseState :=
  let stripped := pyStrip line
  if stripped = [] then
    if st.is_body_started && !st.is_service_box && lastIsNonBlank st.data.body_lines then
      { st with data := { st.data with body_lines := st.data.body_lines ++ [[]] } }
    else st
  else
    let line_lower := line_lower_of stripped
    if strInfix (pyStr "how can we help") line_lower && strInfix (pyStr "##") stripped then
      { st with is_service_box := true,
                service_box := some ⟨clean_body_line (pyReplace (pyStr "##") [] stripped), [], []⟩ }
    else
      let st1 := service_exit_adjust st stripped line_lower
      if st1.is_service_box then
        service_line_step st1 stripped line_lower
      else if st1.is_body_started = false ∧ strPre (pyStr "##") stripped = true then
        parse_line_tags hyperlink_map page_slug { st1 with is_body_started := true }
          stripped line_lower
      else if st1.is_body_started = false ∧
          (strPre (pyStr "# ") stripped = true ∨
            pyLower (clean_nav_text stripped) = pyLower st1.data.title) then
        st1
      else
        parse_line_tags hyperlink_map page_slug st1 stripped line_lower

/-- `page_title.replace("#", "").replace(" Page", "").strip()`
(app.py line 309). -/
def py_clean_title (page_title : PyStr) : PyStr :=
  pyStrip (pyReplace (pyStr " Page") [] (pyReplace (pyStr "#") [] page_title))

/-- `page_slug = to_kebab_case(clean_title)` (app.py line 310). -/
def page_slug_of (page_title : PyStr) : PyStr := to_kebab_case (py_clean_title page_title)

/-- The initial loop state of `parse_page_content` (app.py lines 309-318);
`queue0` is the caller's image queue, which the parse appends to. -/
def parse_init (page_title : PyStr) (queue0 : List ImageTask) : ParseState :=
  ⟨⟨py_clean_title page_title, page_slug_of page_title, [], [], [], []⟩,
   none, false, false, queue0⟩

/-- `parse_page_content` (app.py lines 307-404): fold the line loop over
`raw_text.split('\n')`. -/
def parse_page_content (raw_text page_title : PyStr) (queue0 : List ImageTask)
    (hyperlink_map : List (PyStr × PyStr)) : ParseState :=
  (pySplit (ch '\n') raw_text).foldl
    (parse_line hyperlink_map (page_slug_of page_title)) (parse_init page_title queue0)

example :
    (parse_page_content (pyStr "[cta] Call 555-555-5555 now") (pyStr "Home") []
      []).data.ctas = [ctaPhone] := by decide
example :
    (parse_page_content (pyStr "[cta] Get a free quote") (pyStr "Home") []
      []).data.ctas =
      [⟨pyStr "Get a free quote", pyStr "\x7b\x7b site.contact_page \x7d\x7d",
        pyStr "mark_email_unread", pyStr "button-1", pyStr "primary1", pyStr "true"⟩] := by
  decide
example :
    (parse_page_content (pyStr "[hero image] kitchen remodel") (pyStr "Home") []
      [(pyStr "kitchen remodel pro", pyStr "http://img.example/k.jpg")]).image_queue =
      [⟨pyStr "http://img.example/k.jpg", pyStr "home"⟩] := by decide
example :
    (parse_page_content (pyStr "## Intro\n\n\nSome text\n- a\n- b\nTail") (pyStr "Home") []
      []).data.body_lines =
      [pyStr "## Intro", [], pyStr "Some text", [], pyStr "- a", pyStr "- b", [],
       pyStr "Tail"] := by decide

/-- No two consecutive empty strings in a line list (the invariant of claim
C9 over `body_lines`). -/
def noDoubleBlank : List PyStr → Bool
  | [] => true
  | [_] => true
  | a :: b :: rest => !(decide (a = []) && decide (b = [])) && noDoubleBlank (b :: rest)

/-!  The review block parser, `generate_reviews_yaml` (app.py lines
234-270).  The final `yaml.dump` serialisation is an external library call;
the embedding produces the list of review records it is fed. -/

/-- One review record (app.py lines 264-267); the `service_type` key is the
constant `None` and is omitted. -/
structure Review where
  text : PyStr
  source : PyStr
  service : PyStr
  deriving DecidableEq, Repr

/-- `re.sub(r'^#.*', '', raw_text, flags=re.MULTILINE)` (app.py line 235):
blank out every line that starts with `#`. -/
def stripHeadingLines (raw : PyStr) : PyStr :=
  pyJoin [ch '\n'] ((pySplit (ch '\n') raw).map (fun l =>
    if l.head? = some (ch '#') then [] else l))

/-- Helper for `re.search(r'(.*?)\s*\(([^)]+)\)$', l)` once the final `)`
has been removed: split the body at the first `(` that has no `)` after it
and at least one character after it (the group `[^)]+` must be non-empty and
must reach the final `)`).  Returns (prefix, parenthesised content). -/
def stpAux : PyStr → Option (PyStr × PyStr)
  | [] => none
  | c :: rest =>
    if c = ch '(' ∧ ¬ (ch ')') ∈ rest ∧ rest ≠ [] then some ([], rest)
    else
      match stpAux rest with
      | some (a, b) => some (c :: a, b)
      | none => none

/-- `re.search(r'(.*?)\s*\(([^)]+)\)$', clean_line)` (app.py line 244):
matches only when the line ends in `)` with a non-empty, `)`-free
parenthesised group; group 1 is everything before the `(` (the code strips
it afterwards, absorbing the `\s*`). -/
def trailingParen (l : PyStr) : Option (PyStr × PyStr) :=
  match l.getLast? with
  | some c => if c = ch ')' then stpAux l.dropLast else none
  | none => none

/-- Terminal punctuation class `[.!?"]` of app.py line 250. -/
def isTermPunctN (n : Nat) : Bool :=
  decide (n = ch '.') || decide (n = ch '!') || decide (n = ch '?') || decide (n = ch '"')

/-- `re.search(r'(.*[.!?"])\s+(.*)', pre_paren)` (app.py line 250): the
greedy `.*` picks the last terminal-punctuation character followed by
whitespace; group 1 runs up to and including it, group 2 starts after the
maximal whitespace run.  The recursion prefers matches further right. -/
def sentSplitAux : PyStr → Option (PyStr × PyStr)
  | [] => none
  | c :: rest =>
    match sentSplitAux rest with
    | some (g1, g2) => some (c :: g1, g2)
    | none =>
      match rest with
      | d :: _ =>
        if isTermPunctN c && isSpaceN d then some ([c], rest.dropWhile isSpaceN)
        else none
      | [] => none

/-- The (quote, source) split regex of app.py line 250. -/
def sentSplit (l : PyStr) : Option (PyStr × PyStr) := sentSplitAux l

/-- One line of the review loop (app.py lines 240-269), acting on the
accumulated `(records, buffer)` state. -/
def review_step (acc : List Review × List PyStr) (line : PyStr) :
    List Review × List PyStr :=
  let stripped := pyStrip line
  if stripped = [] then acc
  else
    let clean_line := pyStrip (subMdLink stripped)
    match trailingParen clean_line with
    | some (g1, g2) =>
      let pre_paren := pyStrip g1
      let service := pyStrip g2
      let rs :=
        match sentSplit pre_paren with
        | some (s1, s2) =>
          (pyJoin [ch ' '] (acc.2 ++ [pyStrip s1]), pyStrip s2)
        | none =>
          if (pySplitWs pre_paren).length < 5 then (pyJoin [ch ' '] acc.2, pre_paren)
          else (pyJoin [ch ' '] (acc.2 ++ [pre_paren]), [])
      let review_text := pyReplace (pyStr "**") []
        (pyStripChar (ch '\x27') (pyStripChar (ch '"') (pyStrip rs.1)))
      if review_text ≠ [] then
        (acc.1 ++ [⟨review_text, pyReplace (pyStr "**") [] rs.2,
           ch '(' :: (pyReplace (pyStr "**") [] service ++ [ch ')'])⟩], [])
      else (acc.1, [])
    | none => (acc.1, acc.2 ++ [clean_line])

/-- The review records built by `generate_reviews_yaml` (app.py lines
234-269): strip heading lines, turn every `**` into a line break, then run
the buffered attribution loop over the resulting lines. -/
def generate_reviews_records (raw : PyStr) : List Review :=
  ((pySplit (ch '\n')
      (pyReplace (pyStr "**") [ch '\n'] (stripHeadingLines raw))).foldl
    review_step ([], [])).1

example :
    generate_reviews_records (pyStr "**\"Great service!\" - Jane D. (Plumbing)**") =
      [⟨pyStr "Great service!", pyStr "- Jane D.", pyStr "(Plumbing)"⟩] := by decide

/-!  The navigation tree builder, `generate_nav_yaml` (app.py lines
189-232), and the navigation-item scraper used by segmentation. -/

/-- `extract_nav_items_from_lines` (app.py lines 189-194). -/
def extract_nav_items_from_lines (lines : List PyStr) : List PyStr :=
  (lines.map clean_nav_text).filter (fun clean =>
    clean ≠ [] ∧ strInfix (pyStr "Navigation (") clean = false ∧
      strInfix (pyStr "Dev Note") clean = false)

/-- `list_pattern = re.compile(r'^[\s]*[\-\*]\s+')` applied with `.match`
(app.py lines 199, 203). -/
def nav_list_pattern (l : PyStr) : Bool := isListMarker (l.dropWhile isSpaceN)

/-- A navigation line that `generate_nav_yaml` treats as a child: its
stripped form matches the list-marker prefix pattern (app.py line 203). -/
def isChildLine (line : PyStr) : Bool := nav_list_pattern (pyStrip line)

/-- Append a child under key `k` of the insertion-ordered structure
(`nav_structure[current_parent].append(clean_text)`, app.py line 207). -/
def navAddChild : List (PyStr × List PyStr) → PyStr → PyStr → List (PyStr × List PyStr)
  | [], _, _ => []
  | (k0, cs) :: rest, k, c =>
    if k0 = k then (k0, cs ++ [c]) :: rest else (k0, cs) :: navAddChild rest k c

/-- `current_parent not in nav_structure` guarded insert (app.py line 210). -/
def navAddParent (m : List (PyStr × List PyStr)) (k : PyStr) : List (PyStr × List PyStr) :=
  if (m.map Prod.fst).contains k then m else m ++ [(k, [])]

/-- The structure-building loop of `generate_nav_yaml` (app.py lines
197-210), threading the current parent. -/
def navGo : List PyStr → Option PyStr → List (PyStr × List PyStr) →
    List (PyStr × List PyStr)
  | [], _, acc => acc
  | line :: rest, parent, acc =>
    let stripped := pyStrip line
    if stripped = [] ∨ strInfix (pyStr "Dev Note") stripped = true then
      navGo rest parent acc
    else
      let clean_text := clean_nav_text stripped
      if clean_text = [] then navGo rest parent acc
      else if nav_list_pattern stripped = true then
        match parent with
        | some p => navGo rest parent (navAddChild acc p clean_text)
        | none => navGo rest parent acc
      else navGo rest (some clean_text) (navAddParent acc clean_text)

/-- The parent/children structure built by `generate_nav_yaml`. -/
def nav_structure (lines : List PyStr) : List (PyStr × List PyStr) :=
  navGo lines none []

/-- Fuelled worker for `nav_chunks`. -/
def navChunksGo : Nat → List PyStr → List (List PyStr)
  | _, [] => []
  | 0, l => [l]
  | fuel + 1, c :: rest =>
    ((c :: rest).take 8) :: navChunksGo fuel ((c :: rest).drop 8)

/-- `chunks = [children[i:i + 8] for i in range(0, len(children), 8)]`
(app.py line 222). -/
def nav_chunks (children : List PyStr) : List (List PyStr) :=
  navChunksGo children.length children

/-- One rendered navigation entry: the `- text/href` block plus its dropdown
columns, each column the list of `(child text, child href)` pairs emitted at
app.py lines 224-230. -/
structure NavEntry where
  text : PyStr
  href : PyStr
  dropdown : List (List (PyStr × PyStr))
  deriving DecidableEq, Repr

/-- The per-child href of app.py lines 226-229. -/
def nav_child_href (parent child : PyStr) : PyStr :=
  if parent = pyStr "Promotions" then pyStr "/promotions/"
  else if parent = pyStr "About Us" then
    ch '/' :: (to_kebab_case child ++ [ch '/'])
  else pyStr "/services/" ++ (to_kebab_case child ++ [ch '/'])

/-- The rendering loop of `generate_nav_yaml` (app.py lines 212-231), with
the YAML text abstracted into the `NavEntry` records it prints in order:
parent href (`/contact-us/` when the slug contains `contact`, else `#`) and
the children batched into chunks of at most 8. -/
def generate_nav_entries (lines : List PyStr) : List NavEntry :=
  (nav_structure lines).map (fun pc =>
    ⟨pc.1,
     (if strInfix (pyStr "contact") (to_kebab_case pc.1) = true then pyStr "/contact-us/"
      else pyStr "#"),
     (nav_chunks pc.2).map (fun chunk => chunk.map (fun c => (c, nav_child_href pc.1 c)))⟩)

example :
    nav_structure [pyStr "Services", pyStr "- Heating", pyStr "- Cooling",
        pyStr "Contact Us"] =
      [(pyStr "Services", [pyStr "Heating", pyStr "Cooling"]), (pyStr "Contact Us", [])] := by
  decide
example :
    (generate_nav_entries (pyStr "Services" :: List.replicate 17 (pyStr "- x"))).map
      (fun e => e.dropdown.map List.length) = [[8, 8, 1]] := by decide

/-!  Section segmentation, `process_docx` (app.py lines 457-516).  The
docx → markdown rendering (mammoth / markdownify, lines 459-460) is an
external collaborator; the embedding starts from the resulting line list.
The `sections` dict holds the navigation line list under `'Navigation'` and
page text blobs under their cleaned names; since `"navigation"` is an
excluded keyword, no page section can ever be committed under exactly
`Navigation`, so they are kept in two fields. -/

/-- Pass 1 of `process_docx` (app.py lines 467-482): navigation capture.
Returns the committed navigation lines, or `none` when capture never ends
(the source then never assigns `sections['Navigation']`). -/
def nav_pass : List PyStr → Bool → Bool → List PyStr → Option (List PyStr)
  | [], _, _, _ => none
  | line :: rest, capturing, captured, acc =>
    let stripped := pyStrip line
    let clean := clean_nav_text stripped
    if captured = false ∧ strInfix (pyStr "Navigation (All Pages)") clean = true then
      nav_pass rest true captured acc
    else if capturing then
      if strPre (pyStr "# ") stripped = true ∨
          (strPre (pyStr "## ") stripped = true ∧
            strInfix (pyStr "Navigation") clean = false) then
        some acc
      else nav_pass rest capturing captured (acc ++ [stripped])
    else nav_pass rest capturing captured acc

/-- Pass 2 of `process_docx` (app.py lines 489-515): page segmentation.
State: current page name, accumulated content lines, the footer flag, the
known navigation labels, and the committed sections. -/
def seg_pass (target_pages : List PyStr) :
    List PyStr → PyStr → List PyStr → Bool → List (PyStr × PyStr) →
      List (PyStr × PyStr)
  | [], page, content, _, sections =>
    if content ≠ [] ∧ page ≠ pyStr "00_Ignore" then
      dictSet sections page (pyJoin [ch '\n'] content)
    else sections
  | line :: rest, page, content, passed, sections =>
    let stripped := pyStrip line
    let clean := clean_nav_text stripped
    if strInfix START_MARKER stripped = true ∨
        strInfix (pyStr "Footer (All Pages)") stripped = true then
      seg_pass target_pages rest (pyStr "00_Ignore") [] true sections
    else if passed = false then
      seg_pass target_pages rest page content passed sections
    else
      let is_boundary :=
        (strPre (pyStr "# ") stripped = true ∨
          strSuffix (pyStr "page") (pyLower clean) = true ∨
          (pyLower clean) ∈ target_pages ∨
          strInfix (pyStr "customer reviews") (pyLower clean) = true) ∧
        clean.length < 80 ∧ ¬ (ch '[') ∈ stripped
      let is_exc :=
        EXCLUDED_KEYWORDS.any (fun exc => strInfix exc (pyLower clean)) = true ∧
        strInfix (pyStr "customer reviews") (pyLower clean) = false
      if is_boundary ∧ ¬ is_exc then
        let sections1 :=
          if content ≠ [] ∧ page ≠ pyStr "00_Ignore" then
            dictSet sections page (pyJoin [ch '\n'] content)
          else sections
        seg_pass target_pages rest (pyStrip (pyReplace (pyStr "#") [] clean)) []
          passed sections1
      else if page ≠ pyStr "00_Ignore" then
        seg_pass target_pages rest page (content ++ [line]) passed sections
      else seg_pass target_pages rest page content passed sections

/-- The sections computed by `process_docx` from the markdown line list. -/
structure DocSections where
  nav : Option (List PyStr)
  pages : List (PyStr × PyStr)
  deriving DecidableEq, Repr

/-- `process_docx` (app.py lines 457-516), from the markdown line list: pass
1 captures the navigation block; its items become the known page labels;
pass 2 segments the remaining stream into pages. -/
def process_docx_sections (lines : List PyStr) : DocSections :=
  let nav := nav_pass lines false false []
  let target_pages :=
    match nav with
    | some navLines => (extract_nav_items_from_lines navLines).map pyLower
    | none => []
  ⟨nav, seg_pass target_pages lines (pyStr "00_Ignore") [] false []⟩

example :
    process_docx_sections
      [pyStr "# Footer (All Pages)", pyStr "# Home Page", pyStr "Some content here",
       pyStr "# About Page", pyStr "More content"] =
    ⟨none, [(pyStr "Home Page", pyStr "Some content here"),
            (pyStr "About Page", pyStr "More content")]⟩ := by decide

/-!  The hyperlink extractor, `extract_hyperlinks_from_docx` (app.py lines
148-183).  Its input is an opaque docx object; the embedding models what the
code observes in each paragraph: the paragraph text, the sequence of
`w:hyperlink` inspections (each either failing — caught by the inner
`except: continue` — or yielding the joined, stripped run text together with
its resolved URL, or having no usable relationship id), and whether the
paragraph-level inspection itself raises, which is caught only by the outer
`except: pass` that ends the whole loop. -/

/-- One `w:hyperlink` element inspection (app.py lines 161-172). -/
inductive HLItem where
  | fail
  | skip
  | link (txt url : PyStr)
  deriving DecidableEq, Repr

/-- Whether an item inspection raised (inner `except: continue`). -/
def isFailItem : HLItem → Bool
  | HLItem.fail => true
  | _ => false

/-- One paragraph as observed by the extractor.  `raises = true` models a
paragraph whose inspection raises outside the inner per-item handler. -/
structure HLPara where
  text : PyStr
  items : List HLItem
  raises : Bool
  deriving DecidableEq, Repr

/-- Process the hyperlink items of one paragraph (app.py lines 160-172):
fold the map and the first resolved URL; `fail` items are skipped by the
inner `except: continue`, `skip` items had no usable relationship id. -/
def processItems : List HLItem → List (PyStr × PyStr) → Option PyStr →
    List (PyStr × PyStr) × Option PyStr
  | [], m, found => (m, found)
  | HLItem.fail :: rest, m, found => processItems rest m found
  | HLItem.skip :: rest, m, found => processItems rest m found
  | HLItem.link txt url :: rest, m, found =>
    let m1 :=
      if txt ≠ [] then
        dictSet (dictSet m txt url) (pyReplace (pyStr " ") [] txt) url
      else m
    processItems rest m1 (if found = none then some url else found)

/-- The tag list `['[hero image]', '[image]', '[promo']` (app.py line 157). -/
def HL_TARGET_TAGS : List PyStr := [pyStr "[hero image]", pyStr "[image]", pyStr "[promo"]

/-- Process one (non-raising) paragraph (app.py lines 154-180): fold its
hyperlink items, then — when some URL was found — register the bracket-tag
alias keys for each matching placeholder tag. -/
def processPara (p : HLPara) (m : List (PyStr × PyStr)) : List (PyStr × PyStr) :=
  let para_text := pyStrip p.text
  let r := processItems p.items m none
  match r.2 with
  | none => r.1
  | some url =>
    HL_TARGET_TAGS.foldl (fun acc tag =>
      if strInfix tag (pyLower para_text) = true then
        let clean_val := pyStrip (removeBrackets para_text)
        if clean_val ≠ [] then
          dictSet (dictSet acc clean_val url) (pyReplace (pyStr " ") [] clean_val) url
        else acc
      else acc) r.1

/-- `extract_hyperlinks_from_docx` (app.py lines 148-183): process the
paragraphs in order; a paragraph-level failure triggers the outer
`except: pass`, which returns the map accumulated so far. -/
def extract_hyperlinks : List HLPara → List (PyStr × PyStr) → List (PyStr × PyStr)
  | [], m => m
  | p :: rest, m =>
    if p.raises then m
    else extract_hyperlinks rest (processPara p m)

/-- The extractor from an empty initial map (`hyperlinks_map = {}`). -/
def extract_hyperlinks_from_docx (paras : List HLPara) : List (PyStr × PyStr) :=
  extract_hyperlinks paras []

example :
    extract_hyperlinks_from_docx
      [⟨pyStr "[hero image] kitchen photo", [HLItem.link (pyStr "link text") (pyStr "http://u")],
        false⟩] =
    [(pyStr "link text", pyStr "http://u"), (pyStr "linktext", pyStr "http://u"),
     (pyStr "kitchen photo", pyStr "http://u"), (pyStr "kitchenphoto", pyStr "http://u")] := by
  decide

/-!  Supporting lemmas: generic list facts. -/

theorem mem_dropWhile_of_mem {p : Nat → Bool} {l : List Nat} {c : Nat}
    (hc : c ∈ l) (hp : p c = false) : c ∈ l.dropWhile p := by
  induction l with
  | nil => cases hc
  | cons a as ih =>
    rw [List.dropWhile_cons]
    by_cases ha : p a = true
    · rw [if_pos ha]
      rcases List.mem_cons.mp hc with rfl | h
      · rw [ha] at hp; cases hp
      · exact ih h
    · rw [if_neg ha]; exact hc

theorem mem_of_mem_dropWhile {p : Nat → Bool} {l : List Nat} {c : Nat}
    (h : c ∈ l.dropWhile p) : c ∈ l :=
  (List.dropWhile_sublist p).subset h

theorem dropWhile_of_all_false {p : Nat → Bool} {l : List Nat}
    (h : ∀ a ∈ l, p a = false) : l.dropWhile p = l := by
  cases l with
  | nil => rfl
  | cons a as =>
    rw [List.dropWhile_cons, if_neg]
    rw [h a (List.mem_cons_self a as)]
    simp

theorem dropWhile_idem {p : Nat → Bool} {l : List Nat} :
    (l.dropWhile p).dropWhile p = l.dropWhile p := by
  induction l with
  | nil => rfl
  | cons a as ih =>
    rw [List.dropWhile_cons]
    by_cases ha : p a = true
    · rw [if_pos ha]; exact ih
    · rw [if_neg ha, List.dropWhile_cons, if_neg ha]

theorem head?_dropWhile_false {p : Nat → Bool} {l : List Nat} {x : Nat}
    (h : (l.dropWhile p).head? = some x) : p x = false := by
  induction l with
  | nil => cases h
  | cons a as ih =>
    rw [List.dropWhile_cons] at h
    by_cases ha : p a = true
    · rw [if_pos ha] at h; exact ih h
    · rw [if_neg ha] at h
      cases h
      rw [Bool.eq_false_iff]; exact ha

theorem map_id_on {f : Nat → Nat} {l : List Nat} (h : ∀ a ∈ l, f a = a) : l.map f = l := by
  induction l with
  | nil => rfl
  | cons a as ih =>
    rw [List.map_cons, h a (List.mem_cons_self a as),
      ih (fun b hb => h b (List.mem_cons_of_mem a hb))]

/-!  Supporting lemmas: the strip / prefix primitives. -/

theorem strPre_iff {pat l : List Nat} : strPre pat l = true ↔ ∃ t, l = pat ++ t := by
  induction pat generalizing l with
  | nil => simp [strPre]
  | cons a pr ih =>
    cases l with
    | nil =>
      simp only [strPre, List.cons_append]
      constructor
      · intro h; cases h
      · rintro ⟨t, ht⟩; cases ht
    | cons b bs =>
      simp only [strPre, Bool.and_eq_true, decide_eq_true_eq, ih, List.cons_append]
      constructor
      · rintro ⟨rfl, t, rfl⟩; exact ⟨t, rfl⟩
      · rintro ⟨t, ht⟩
        injection ht with h1 h2
        exact ⟨h1.symm, t, h2⟩

theorem mem_pyStrip_of_mem {l : List Nat} {c : Nat} (hc : c ∈ l)
    (hs : isSpaceN c = false) : c ∈ pyStrip l := by
  unfold pyStrip
  exact List.mem_reverse.mpr
    (mem_dropWhile_of_mem (List.mem_reverse.mpr (mem_dropWhile_of_mem hc hs)) hs)

theorem mem_of_mem_pyStrip {l : List Nat} {c : Nat} (h : c ∈ pyStrip l) : c ∈ l :=
  mem_of_mem_dropWhile (List.mem_reverse.mp (mem_of_mem_dropWhile (List.mem_reverse.mp h)))

theorem pyStrip_noop {l : List Nat} (h : ∀ a ∈ l, isSpaceN a = false) : pyStrip l = l := by
  unfold pyStrip
  rw [dropWhile_of_all_false h,
    dropWhile_of_all_false (fun a ha => h a (List.mem_reverse.mp ha)), List.reverse_reverse]

theorem dropWhile_pyStrip (l : List Nat) : (pyStrip l).dropWhile isSpaceN = pyStrip l := by
  unfold pyStrip
  obtain ⟨s, hs⟩ : ∃ s,
      s ++ (List.dropWhile isSpaceN l).reverse.dropWhile isSpaceN =
        (List.dropWhile isSpaceN l).reverse :=
    ⟨_, List.takeWhile_append_dropWhile _ _⟩
  cases h : ((List.dropWhile isSpaceN l).reverse.dropWhile isSpaceN).reverse with
  | nil => rfl
  | cons a t =>
    have hX : List.dropWhile isSpaceN l = a :: t ++ s.reverse := by
      have h2 := congrArg List.reverse hs
      rw [List.reverse_append, List.reverse_reverse] at h2
      rw [← h2, h]
    have ha : isSpaceN a = false := by
      apply head?_dropWhile_false (l := l)
      rw [hX]; rfl
    rw [List.dropWhile_cons, if_neg]
    rw [ha]; simp

theorem pyStrip_idem (l : List Nat) : pyStrip (pyStrip l) = pyStrip l := by
  conv_lhs => rw [pyStrip]
  rw [dropWhile_pyStrip]
  conv_lhs => rw [pyStrip, List.reverse_reverse]
  rw [dropWhile_idem]
  rw [← pyStrip]

/-!  Supporting lemmas: `pyReplace`. -/

theorem pyReplaceGo_not_mem {p : Nat} {pr repl l : List Nat} (fuel : Nat)
    (h : p ∉ l) : pyReplaceGo (p :: pr) repl fuel l = l := by
  induction fuel generalizing l with
  | zero => cases l <;> rfl
  | succ n ih =>
    cases l with
    | nil => rfl
    | cons c rest =>
      rw [pyReplaceGo, if_neg]
      · rw [ih (fun hc => h (List.mem_cons_of_mem c hc))]
      · rintro ⟨-, hpre⟩
        obtain ⟨t, ht⟩ := strPre_iff.mp hpre
        rw [List.cons_append] at ht
        injection ht with h1 _
        exact h (h1 ▸ List.mem_cons_self c rest)

theorem mem_of_mem_pyReplaceGo {pat repl l : List Nat} {c : Nat} (fuel : Nat)
    (h : c ∈ pyReplaceGo pat repl fuel l) : c ∈ l ∨ c ∈ repl := by
  induction fuel generalizing l with
  | zero => cases l with
    | nil => cases h
    | cons a rest => exact Or.inl h
  | succ n ih =>
    cases l with
    | nil => cases h
    | cons a rest =>
      rw [pyReplaceGo] at h
      by_cases hc : pat ≠ [] ∧ strPre pat (a :: rest) = true
      · rw [if_pos hc] at h
        rcases List.mem_append.mp h with hrep | hrec
        · exact Or.inr hrep
        · rcases ih hrec with hd | hr
          · exact Or.inl (List.mem_cons_of_mem a (List.mem_of_mem_drop hd))
          · exact Or.inr hr
      · rw [if_neg hc] at h
        rcases List.mem_cons.mp h with rfl | h2
        · exact Or.inl (List.mem_cons_self _ _)
        · rcases ih h2 with h3 | h3
          · exact Or.inl (List.mem_cons_of_mem a h3)
          · exact Or.inr h3

theorem mem_pyReplaceGo_of_mem {pat repl l : List Nat} {c : Nat} (fuel : Nat)
    (hc : c ∈ l) (hpat : c ∉ pat) : c ∈ pyReplaceGo pat repl fuel l := by
  induction fuel generalizing l with
  | zero => cases l with
    | nil => cases hc
    | cons a rest => exact hc
  | succ n ih =>
    cases l with
    | nil => cases hc
    | cons a rest =>
      rw [pyReplaceGo]
      by_cases hm : pat ≠ [] ∧ strPre pat (a :: rest) = true
      · rw [if_pos hm]
        obtain ⟨t, ht⟩ := strPre_iff.mp hm.2
        have hdrop : List.drop (pat.length - 1) rest = t := by
          cases pat with
          | nil => exact absurd rfl hm.1
          | cons p0 ps =>
            rw [List.cons_append] at ht
            injection ht with _ h2
            rw [h2, List.length_cons, Nat.add_sub_cancel]
            exact List.drop_left ps t
        rcases List.mem_append.mp (ht ▸ hc) with hp | htmem
        · exact absurd hp hpat
        · exact List.mem_append_right repl (ih (hdrop ▸ htmem))
      · rw [if_neg hm]
        rcases List.mem_cons.mp hc with rfl | h2
        · exact List.mem_cons_self _ _
        · exact List.mem_cons_of_mem a (ih h2)

theorem pyReplaceGo_ne_nil {pat repl l : List Nat} (fuel : Nat) (hl : l ≠ [])
    (hr : repl ≠ []) : pyReplaceGo pat repl fuel l ≠ [] := by
  cases fuel with
  | zero => cases l with
    | nil => exact absurd rfl hl
    | cons a rest => simp [pyReplaceGo]
  | succ n =>
    cases l with
    | nil => exact absurd rfl hl
    | cons a rest =>
      rw [pyReplaceGo]
      by_cases hm : pat ≠ [] ∧ strPre pat (a :: rest) = true
      · rw [if_pos hm]
        cases repl with
        | nil => exact absurd rfl hr
        | cons r rs => simp
      · rw [if_neg hm]; simp

theorem pyReplace_not_mem {p : Nat} {pr repl l : List Nat} (h : p ∉ l) :
    pyReplace (p :: pr) repl l = l := pyReplaceGo_not_mem _ h

theorem mem_of_mem_pyReplace {pat repl l : List Nat} {c : Nat}
    (h : c ∈ pyReplace pat repl l) : c ∈ l ∨ c ∈ repl := mem_of_mem_pyReplaceGo _ h

theorem mem_pyReplace_of_mem {pat repl l : List Nat} {c : Nat}
    (hc : c ∈ l) (hpat : c ∉ pat) : c ∈ pyReplace pat repl l :=
  mem_pyReplaceGo_of_mem _ hc hpat

theorem pyReplace_ne_nil {pat repl l : List Nat} (hl : l ≠ []) (hr : repl ≠ []) :
    pyReplace pat repl l ≠ [] := pyReplaceGo_ne_nil _ hl hr

/-!  Supporting lemmas: `subMdLink`. -/

theorem splitFirst_eq {t : Nat} {l a b : List Nat} (h : splitFirst t l = some (a, b)) :
    l = a ++ t :: b := by
  induction l generalizing a b with
  | nil => cases h
  | cons c rest ih =>
    rw [splitFirst] at h
    by_cases hc : c = t
    · rw [if_pos hc] at h
      injection h with h1
      have ha : a = [] := (congrArg Prod.fst h1).symm
      have hb : b = rest := (congrArg Prod.snd h1).symm
      subst ha; subst hb; rw [hc]; rfl
    · rw [if_neg hc] at h
      cases hsp : splitFirst t rest with
      | none => rw [hsp] at h; cases h
      | some ab =>
        rw [hsp] at h
        injection h with h1
        have ha : a = c :: ab.1 := (congrArg Prod.fst h1).symm
        have hb : b = ab.2 := (congrArg Prod.snd h1).symm
        subst ha; subst hb
        rw [List.cons_append, ← ih (show splitFirst t rest = some (ab.1, ab.2) from hsp)]

theorem mdMatch_eq {rest label rest4 : List Nat} (h : mdMatch rest = some (label, rest4)) :
    ∃ mid, rest = label ++ ch ']' :: ch '(' :: (mid ++ ch ')' :: rest4) ∧ label ≠ [] := by
  unfold mdMatch at h
  split at h
  · cases h
  · rename_i lab rest2 h1
    by_cases h2 : lab = []
    · rw [if_pos h2] at h; cases h
    · rw [if_neg h2] at h
      split at h
      · cases h
      · rename_i p rest3
        by_cases h4 : p = ch '('
        · rw [if_pos h4] at h
          split at h
          · cases h
          · rename_i mid rest5 h5
            by_cases h6 : (ch '\n') ∈ mid
            · rw [if_pos h6] at h; cases h
            · rw [if_neg h6] at h
              injection h with h7
              have h8 : label = lab := (congrArg Prod.fst h7).symm
              have h9 : rest4 = rest5 := (congrArg Prod.snd h7).symm
              refine ⟨mid, ?_, h8 ▸ h2⟩
              have e1 : rest = lab ++ ch ']' :: (p :: rest3) := splitFirst_eq h1
              have e2 : rest3 = mid ++ ch ')' :: rest5 := splitFirst_eq h5
              rw [e1, e2, h4, h8, h9]
        · rw [if_neg h4] at h; cases h

theorem subMdLinkGo_no_bracket {l : List Nat} (fuel : Nat) (h : (ch '[') ∉ l) :
    subMdLinkGo fuel l = l := by
  induction fuel generalizing l with
  | zero => cases l <;> rfl
  | succ n ih =>
    cases l with
    | nil => rfl
    | cons c rest =>
      rw [subMdLinkGo, if_neg]
      · rw [ih (fun hc => h (List.mem_cons_of_mem c hc))]
      · intro hc
        exact h (hc ▸ List.mem_cons_self c rest)

theorem mem_of_mem_subMdLinkGo {l : List Nat} {c : Nat} (fuel : Nat)
    (h : c ∈ subMdLinkGo fuel l) : c ∈ l := by
  induction fuel generalizing l with
  | zero => cases l with
    | nil => cases h
    | cons a rest => exact h
  | succ n ih =>
    cases l with
    | nil => cases h
    | cons a rest =>
      rw [subMdLinkGo] at h
      by_cases ha : a = ch '['
      · rw [if_pos ha] at h
        cases hm : mdMatch rest with
        | some lr =>
          rw [hm] at h
          obtain ⟨mid, hrest, -⟩ := mdMatch_eq (show mdMatch rest = some (lr.1, lr.2) from hm)
          rcases List.mem_append.mp h with h2 | h2
          · exact List.mem_cons_of_mem a (hrest ▸ List.mem_append_left _ h2)
          · apply List.mem_cons_of_mem a
            rw [hrest]
            apply List.mem_append_right
            apply List.mem_cons_of_mem
            apply List.mem_cons_of_mem
            apply List.mem_append_right
            exact List.mem_cons_of_mem _ (ih h2)
        | none =>
          rw [hm] at h
          rcases List.mem_cons.mp h with rfl | h2
          · exact List.mem_cons_self _ _
          · exact List.mem_cons_of_mem a (ih h2)
      · rw [if_neg ha] at h
        rcases List.mem_cons.mp h with rfl | h2
        · exact List.mem_cons_self _ _
        · exact List.mem_cons_of_mem a (ih h2)

theorem subMdLink_no_bracket {l : List Nat} (h : (ch '[') ∉ l) : subMdLink l = l :=
  subMdLinkGo_no_bracket _ h

theorem mem_of_mem_subMdLink {l : List Nat} {c : Nat} (h : c ∈ subMdLink l) : c ∈ l :=
  mem_of_mem_subMdLinkGo _ h

/-!  Supporting lemmas: `collapseWs`. -/

theorem mem_collapseWsGo {l : List Nat} {c : Nat} (fuel : Nat) (hf : l.length ≤ fuel)
    (h : c ∈ collapseWsGo fuel l) : c = ch '-' ∨ (c ∈ l ∧ isSpaceN c = false) := by
  induction fuel generalizing l with
  | zero =>
    cases l with
    | nil => cases h
    | cons a rest => simp at hf
  | succ n ih =>
    cases l with
    | nil => cases h
    | cons a rest =>
      rw [collapseWsGo] at h
      by_cases ha : isSpaceN a = true
      · rw [if_pos ha] at h
        rcases List.mem_cons.mp h with rfl | h2
        · exact Or.inl rfl
        · have hb : (rest.dropWhile isSpaceN).length ≤ n := by
            have h3 := (List.dropWhile_sublist (l := rest) isSpaceN).length_le
            simp at hf; omega
          rcases ih hb h2 with h3 | ⟨h4, h5⟩
          · exact Or.inl h3
          · exact Or.inr ⟨List.mem_cons_of_mem a (mem_of_mem_dropWhile h4), h5⟩
      · rw [if_neg ha] at h
        rcases List.mem_cons.mp h with rfl | h2
        · exact Or.inr ⟨List.mem_cons_self _ _, Bool.eq_false_iff.mpr ha⟩
        · have hb : rest.length ≤ n := by simp at hf; omega
          rcases ih hb h2 with h3 | ⟨h4, h5⟩
          · exact Or.inl h3
          · exact Or.inr ⟨List.mem_cons_of_mem a h4, h5⟩

theorem collapseWsGo_no_space {l : List Nat} (fuel : Nat)
    (h : ∀ a ∈ l, isSpaceN a = false) : collapseWsGo fuel l = l := by
  induction fuel generalizing l with
  | zero => cases l <;> rfl
  | succ n ih =>
    cases l with
    | nil => rfl
    | cons a rest =>
      rw [collapseWsGo, if_neg]
      · rw [ih (fun b hb => h b (List.mem_cons_of_mem a hb))]
      · rw [h a (List.mem_cons_self a rest)]; simp

theorem mem_collapseWsGo_of_mem {l : List Nat} {c : Nat} (fuel : Nat)
    (hf : l.length ≤ fuel) (hc : c ∈ l) (hs : isSpaceN c = false) :
    c ∈ collapseWsGo fuel l := by
  induction fuel generalizing l with
  | zero =>
    cases l with
    | nil => cases hc
    | cons a rest => simp at hf
  | succ n ih =>
    cases l with
    | nil => cases hc
    | cons a rest =>
      rw [collapseWsGo]
      by_cases ha : isSpaceN a = true
      · rw [if_pos ha]
        apply List.mem_cons_of_mem
        have hcr : c ∈ rest := by
          rcases List.mem_cons.mp hc with rfl | h2
          · rw [ha] at hs; cases hs
          · exact h2
        have hb : (rest.dropWhile isSpaceN).length ≤ n := by
          have h3 := (List.dropWhile_sublist (l := rest) isSpaceN).length_le
          simp at hf; omega
        exact ih hb (mem_dropWhile_of_mem hcr hs)
      · rw [if_neg ha]
        rcases List.mem_cons.mp hc with rfl | h2
        · exact List.mem_cons_self _ _
        · have hb : rest.length ≤ n := by simp at hf; omega
          exact List.mem_cons_of_mem a (ih hb h2)

/-!  Supporting lemmas: character-class arithmetic (on ASCII codes). -/

theorem isAlnumN_ranges {c : Nat} (h : isAlnumN c = true) :
    (48 ≤ c ∧ c ≤ 57) ∨ (65 ≤ c ∧ c ≤ 90) ∨ (97 ≤ c ∧ c ≤ 122) := by
  unfold isAlnumN isAlphaN isDigitN at h
  simp only [Bool.or_eq_true, Bool.and_eq_true, decide_eq_true_eq] at h
  tauto

theorem isWordN_ranges {c : Nat} (h : isWordN c = true) :
    (48 ≤ c ∧ c ≤ 57) ∨ (65 ≤ c ∧ c ≤ 90) ∨ (97 ≤ c ∧ c ≤ 122) ∨ c = 95 := by
  unfold isWordN isAlphaN isDigitN at h
  simp only [Bool.or_eq_true, Bool.and_eq_true, decide_eq_true_eq] at h
  tauto

theorem isSpaceN_ranges {c : Nat} (h : isSpaceN c = true) :
    c = 32 ∨ (9 ≤ c ∧ c ≤ 13) := by
  unfold isSpaceN at h
  simp only [Bool.or_eq_true, decide_eq_true_eq] at h
  omega

theorem isSpaceN_of_ranges {c : Nat} (h : c = 32 ∨ (9 ≤ c ∧ c ≤ 13)) :
    isSpaceN c = true := by
  unfold isSpaceN
  simp only [Bool.or_eq_true, decide_eq_true_eq]
  omega

theorem isSpaceN_false_of_large {c : Nat} (h : 33 ≤ c) : isSpaceN c = false := by
  unfold isSpaceN
  simp only [Bool.or_eq_false_iff, decide_eq_false_iff_not]
  omega

theorem isWordN_not_space {c : Nat} (h : isWordN c = true) : isSpaceN c = false := by
  have := isWordN_ranges h
  apply isSpaceN_false_of_large
  omega

theorem lowerN_word {c : Nat} (h : isWordN c = true) :
    isWordN (lowerN c) = true ∧ lowerN (lowerN c) = lowerN c := by
  have hr := isWordN_ranges h
  constructor
  · unfold lowerN isWordN isAlphaN isDigitN
    simp only [Bool.or_eq_true, Bool.and_eq_true, decide_eq_true_eq]
    split_ifs <;> omega
  · unfold lowerN
    split_ifs <;> omega

theorem lowerN_of_not_upper {c : Nat} (h : ¬ (65 ≤ c ∧ c ≤ 90)) : lowerN c = c := by
  unfold lowerN
  rw [if_neg h]

theorem lowerN_alnum {c : Nat} (h : isAlnumN c = true) :
    ((48 ≤ lowerN c ∧ lowerN c ≤ 57) ∨ (97 ≤ lowerN c ∧ lowerN c ≤ 122)) ∧
      isSpaceN (lowerN c) = false := by
  have hr := isAlnumN_ranges h
  unfold lowerN
  constructor
  · split_ifs <;> omega
  · apply isSpaceN_false_of_large
    split_ifs <;> omega

theorem navClassN_false_of_alnum {c : Nat} (h : isAlnumN c = true) :
    navClassN c = false := by
  have hr := isAlnumN_ranges h
  have h1 : isSpaceN c = false := isSpaceN_false_of_large (by omega)
  unfold navClassN
  rw [h1, (by decide : ch '*' = 42), (by decide : ch '_' = 95),
    (by decide : ch '-' = 45), (by decide : ch '+' = 43), (by decide : ch '.' = 46)]
  simp only [Bool.false_or, Bool.or_eq_false_iff, decide_eq_false_iff_not]
  omega

theorem keepKebabN_of_word {c : Nat} (h : isWordN c = true) : keepKebabN c = true := by
  unfold keepKebabN
  rw [h]; rfl

/-!  Supporting lemmas: the decoration strips of `clean_nav_text`. -/

theorem mem_of_mem_dropNavLead {l : List Nat} {c : Nat} (h : c ∈ dropNavLead l) : c ∈ l :=
  mem_of_mem_dropWhile h

theorem mem_of_mem_dropNavTrail {l : List Nat} {c : Nat} (h : c ∈ dropNavTrail l) : c ∈ l := by
  unfold dropNavTrail at h
  exact List.mem_reverse.mp (mem_of_mem_dropWhile (List.mem_reverse.mp h))

theorem mem_dropNavLead_of_mem {l : List Nat} {c : Nat} (hc : c ∈ l)
    (hp : navClassN c = false) : c ∈ dropNavLead l :=
  mem_dropWhile_of_mem hc hp

theorem mem_dropNavTrail_of_mem {l : List Nat} {c : Nat} (hc : c ∈ l)
    (hp : navClassN c = false) : c ∈ dropNavTrail l := by
  unfold dropNavTrail
  exact List.mem_reverse.mpr (mem_dropWhile_of_mem (List.mem_reverse.mpr hc) hp)

theorem pyReplace_head_not_mem (pat : List Nat) {repl l : List Nat} {p : Nat}
    (hp : pat.head? = some p) (h : p ∉ l) : pyReplace pat repl l = l := by
  cases pat with
  | nil => cases hp
  | cons q qr =>
    injection hp with hq
    subst hq
    exact pyReplace_not_mem h

/-!  Characterisation of `to_kebab_case` output and the double-application
law behind claim C1. -/

theorem kebab_chars {x : List Nat} {c : Nat} (h : c ∈ to_kebab_case x) :
    (isWordN c = true ∧ lowerN c = c ∧ isSpaceN c = false) ∨ c = ch '-' := by
  unfold to_kebab_case collapseWs at h
  rcases mem_collapseWsGo _ le_rfl h with h1 | ⟨h2, h3⟩
  · exact Or.inr h1
  · unfold pyLower at h2
    obtain ⟨d, hd, rfl⟩ := List.mem_map.mp h2
    have hk : keepKebabN d = true := (List.mem_filter.mp (mem_of_mem_pyStrip hd)).2
    unfold keepKebabN at hk
    simp only [Bool.or_eq_true, decide_eq_true_eq] at hk
    rcases hk with (hw | hsp) | hdash
    · obtain ⟨hw2, hfix⟩ := lowerN_word hw
      exact Or.inl ⟨hw2, hfix, h3⟩
    · rw [lowerN_of_not_upper (by have := isSpaceN_ranges hsp; omega), hsp] at h3
      cases h3
    · subst hdash
      exact Or.inr (by decide)

theorem kebab_alphabet_not_mem {z : List Nat}
    (hz : ∀ c ∈ z, (isWordN c = true ∧ lowerN c = c ∧ isSpaceN c = false) ∨ c = ch '-')
    {b : Nat} (hw : isWordN b = false) (hb : b ≠ ch '-') : b ∉ z := by
  intro hin
  rcases hz b hin with ⟨h1, -, -⟩ | h1
  · rw [h1] at hw; cases hw
  · exact hb h1

theorem kebab_no_space {z : List Nat}
    (hz : ∀ c ∈ z, (isWordN c = true ∧ lowerN c = c ∧ isSpaceN c = false) ∨ c = ch '-') :
    ∀ c ∈ z, isSpaceN c = false := by
  intro c hc
  rcases hz c hc with ⟨-, -, h3⟩ | h3
  · exact h3
  · subst h3; decide

theorem kebab_fixed {z : List Nat}
    (hz : ∀ c ∈ z, (isWordN c = true ∧ lowerN c = c ∧ isSpaceN c = false) ∨ c = ch '-') :
    to_kebab_case z = dropNavTrail (dropNavLead z) := by
  have hnosp := kebab_no_space hz
  have hy : ∀ c ∈ dropNavTrail (dropNavLead z),
      (isWordN c = true ∧ lowerN c = c ∧ isSpaceN c = false) ∨ c = ch '-' :=
    fun c hc => hz c (mem_of_mem_dropNavLead (mem_of_mem_dropNavTrail hc))
  have hynosp := kebab_no_space hy
  have e1 : clean_nav_text z = dropNavTrail (dropNavLead z) := by
    unfold clean_nav_text
    rw [subMdLink_no_bracket (kebab_alphabet_not_mem hz (by decide) (by decide))]
    rw [pyReplace_head_not_mem (pyStr "\x7b") rfl
      (kebab_alphabet_not_mem hz (by decide) (by decide))]
    rw [pyReplace_head_not_mem (pyStr "\x7d") rfl
      (kebab_alphabet_not_mem hz (by decide) (by decide))]
    rw [pyReplace_head_not_mem (pyStr "#") rfl
      (kebab_alphabet_not_mem hy (by decide) (by decide))]
    rw [pyReplace_head_not_mem (pyStr "**") rfl
      (kebab_alphabet_not_mem hy (by decide) (by decide))]
    exact pyStrip_noop hynosp
  unfold to_kebab_case
  rw [e1]
  rw [pyReplace_head_not_mem (pyStr " - ") rfl (fun hin => by
    have := hynosp _ hin; exact absurd this (by decide))]
  rw [pyReplace_head_not_mem (pyStr "|") rfl
    (kebab_alphabet_not_mem hy (by decide) (by decide))]
  rw [List.filter_eq_self.mpr (fun c hc => by
    rcases hy c hc with ⟨hw, -, -⟩ | hd
    · exact keepKebabN_of_word hw
    · subst hd; decide)]
  rw [pyStrip_noop hynosp]
  rw [show pyLower (dropNavTrail (dropNavLead z)) = dropNavTrail (dropNavLead z) from
    map_id_on (fun c hc => by
      rcases hy c hc with ⟨-, hfix, -⟩ | hd
      · exact hfix
      · subst hd; decide)]
  unfold collapseWs
  exact collapseWsGo_no_space _ hynosp

theorem alnum_not_mem_small {a : Nat} (haln : isAlnumN a = true) {l : List Nat}
    (hl : ∀ b ∈ l, b < 48 ∨ (57 < b ∧ b < 65) ∨ (90 < b ∧ b < 97) ∨ 122 < b) : a ∉ l := by
  intro hm
  have h2 := hl a hm
  have h3 := isAlnumN_ranges haln
  omega

theorem mem_to_kebab_of_alnum {t : List Nat} {a : Nat} (ha : a ∈ t)
    (haln : isAlnumN a = true) (hnb : (ch '[') ∉ t) : lowerN a ∈ to_kebab_case t := by
  have hw : isWordN a = true := by
    simp only [isWordN, isAlnumN, Bool.or_eq_true] at haln ⊢
    tauto
  have hnav : navClassN a = false := navClassN_false_of_alnum haln
  have hsp : isSpaceN a = false := isWordN_not_space hw
  unfold to_kebab_case collapseWs
  apply mem_collapseWsGo_of_mem _ le_rfl _ (lowerN_alnum haln).2
  apply List.mem_map_of_mem lowerN
  apply mem_pyStrip_of_mem _ hsp
  apply List.mem_filter.mpr
  refine ⟨?_, keepKebabN_of_word hw⟩
  apply mem_pyReplace_of_mem _ (alnum_not_mem_small haln (by decide))
  apply mem_pyReplace_of_mem _ (alnum_not_mem_small haln (by decide))
  unfold clean_nav_text
  apply mem_pyStrip_of_mem _ hsp
  apply mem_pyReplace_of_mem _ (alnum_not_mem_small haln (by decide))
  apply mem_pyReplace_of_mem _ (alnum_not_mem_small haln (by decide))
  apply mem_dropNavTrail_of_mem _ hnav
  apply mem_dropNavLead_of_mem _ hnav
  apply mem_pyReplace_of_mem _ (alnum_not_mem_small haln (by decide))
  apply mem_pyReplace_of_mem _ (alnum_not_mem_small haln (by decide))
  rw [subMdLink_no_bracket hnb]
  exact ha

/-!  Claim C1. -/

/-- C1 counterexample: `to_kebab_case` is not idempotent.  On the input
`"|-a"` the `|` shields the leading `-` from `clean_nav_text`'s decoration
strip, the later `|`-removal exposes it, and only a second application
strips it: one application gives `"-a"`, two give `"a"`. -/
theorem c1_counterexample :
    to_kebab_case (to_kebab_case (pyStr "|-a")) ≠ to_kebab_case (pyStr "|-a") := by decide

/-- C1 (amended): applying `to_kebab_case` twice is the same as applying it
once and then stripping leading/trailing decoration-class characters
(in the output alphabet, hyphens and underscores); in particular the
function is idempotent exactly on inputs whose kebab form neither starts
nor ends with such a character, but not in general. -/
theorem c1_kebab_double_application : ∀ x : PyStr,
    to_kebab_case (to_kebab_case x) = dropNavTrail (dropNavLead (to_kebab_case x)) :=
  fun _ => kebab_fixed (fun _ hc => kebab_chars hc)

/-!  Claim C6. -/

/-- C6 counterexample: a page titled `"???"` with content of 10 or more
characters survives `should_skip_page`, yet its slug — `to_kebab_case` of
the cleaned title — is the empty string, because every character is deleted
by the `[^\w\s-]` filter. -/
theorem c6_counterexample :
    should_skip_page (pyStr "???") (pyStr "some long content!") = false ∧
    page_slug_of (pyStr "???") = [] := by decide

/-- C6 (amended): the slug is derived deterministically from the title by
the kebab rule (`page_slug_of` is a function of the title alone), and for
every page surviving the exclusion filter whose cleaned title (`#` and
`" Page"` removed, stripped) contains at least one ASCII letter or digit and
no `[`, the slug is non-empty.  Titles with no such character (e.g. `"???"`)
can produce an empty slug. -/
theorem c6_slug_nonempty : ∀ title content : PyStr,
    should_skip_page title content = false →
    (∃ a ∈ py_clean_title title, isAlnumN a = true) →
    (ch '[') ∉ py_clean_title title →
    page_slug_of title ≠ [] := by
  intro title content _ h2 h3
  obtain ⟨a, ha, haln⟩ := h2
  exact List.ne_nil_of_mem (mem_to_kebab_of_alnum ha haln h3)

/-- C6 witness: a concrete surviving page with a non-empty slug, through the
amended theorem. -/
theorem c6_witness : page_slug_of (pyStr "# Widget Page") ≠ [] :=
  c6_slug_nonempty (pyStr "# Widget Page") (pyStr "abcdefghij") (by decide)
    ⟨ch 'W', by decide, by decide⟩ (by decide)

/-!  Claim C2. -/

/-- C2 counterexample: the CTA value `"Call 123-456 today"` contains a
phone-shaped digit sequence but not the default phone number; the code gives
it the phone link (`tel:` + templated placeholder) yet keeps the raw text as
the display, contradicting the claim that the templated display applies in
this case too. -/
theorem c2_counterexample :
    (cta_of_text (pyStr "Call 123-456 today")).link =
      pyStr "tel:\x7b\x7b site.phone \x7d\x7d" ∧
    (cta_of_text (pyStr "Call 123-456 today")).text ≠
      pyStr "\x7b\x7b site.phone \x7d\x7d" := by decide

/-- C2 (amended): CTA classification is the three-way rule of the claim,
except that in the phone-shape branch the display remains the text itself
(only link, icon, scheme and reverse take the phone values); the claim's two
round-trip examples hold as stated, via the full page parse. -/
theorem c2_cta_classification : ∀ t : PyStr,
    (strInfix DEFAULT_PHONE_NUMBER t = true → cta_of_text t = ctaPhone) ∧
    (strInfix DEFAULT_PHONE_NUMBER t = false → hasPhoneShape t = true →
      cta_of_text t = ⟨t, pyStr "tel:\x7b\x7b site.phone \x7d\x7d", pyStr "phone",
        pyStr "button-1", pyStr "accent", pyStr "false"⟩) ∧
    (strInfix DEFAULT_PHONE_NUMBER t = false → hasPhoneShape t = false →
      cta_of_text t = ⟨t, pyStr "\x7b\x7b site.contact_page \x7d\x7d",
        pyStr "mark_email_unread", pyStr "button-1", pyStr "primary1", pyStr "true"⟩) ∧
    (parse_page_content (pyStr "[cta] Call 555-555-5555 now") (pyStr "Home") []
      []).data.ctas = [ctaPhone] ∧
    (parse_page_content (pyStr "[cta] Get a free quote") (pyStr "Home") []
      []).data.ctas =
      [⟨pyStr "Get a free quote", pyStr "\x7b\x7b site.contact_page \x7d\x7d",
        pyStr "mark_email_unread", pyStr "button-1", pyStr "primary1", pyStr "true"⟩] := by
  intro t
  refine ⟨fun h1 => ?_, fun h1 h2 => ?_, fun h1 h2 => ?_, by decide, by decide⟩
  · unfold cta_of_text
    rw [if_pos h1]
  · unfold cta_of_text
    rw [if_neg (by simp [h1]), if_pos h2]
  · unfold cta_of_text
    rw [if_neg (by simp [h1]), if_neg (by simp [h2])]

/-- C2 witness: the phone branch at a concrete value, through the amended
theorem. -/
theorem c2_witness : cta_of_text (pyStr "Call 555-555-5555 now") = ctaPhone :=
  (c2_cta_classification (pyStr "Call 555-555-5555 now")).1 (by decide)

/-!  Claim C3. -/

/-- C3 counterexample: on `'**"Great service!" - Jane D. (Plumbing)**'` the
sentence-split regex puts the separating hyphen into the source group (group
2 starts right after the whitespace that follows the closing quote), so the
record's source is `"- Jane D."`, not `"Jane D."`. -/
theorem c3_counterexample :
    generate_reviews_records (pyStr "**\"Great service!\" - Jane D. (Plumbing)**") ≠
      [⟨pyStr "Great service!", pyStr "Jane D.", pyStr "(Plumbing)"⟩] := by decide

/-- C3 (amended): `generate_reviews_yaml` on
`'**"Great service!" - Jane D. (Plumbing)**'` produces exactly one record
with text `"Great service!"`, service `"(Plumbing)"`, and source
`"- Jane D."` (the attribution hyphen is kept). -/
theorem c3_review_parsing :
    generate_reviews_records (pyStr "**\"Great service!\" - Jane D. (Plumbing)**") =
      [⟨pyStr "Great service!", pyStr "- Jane D.", pyStr "(Plumbing)"⟩] := by decide

/-!  Claim C4. -/

/-- C4: on the line list `["# Footer (All Pages)", "# Home Page",
"Some content here", "# About Page", "More content"]` the segmentation pass
commits exactly the two pages `"Home Page"` and `"About Page"` with their
single content lines, and `"00_Ignore"` is not a key of the section map. -/
theorem c4_section_segmentation :
    process_docx_sections
      [pyStr "# Footer (All Pages)", pyStr "# Home Page", pyStr "Some content here",
       pyStr "# About Page", pyStr "More content"] =
      ⟨none, [(pyStr "Home Page", pyStr "Some content here"),
              (pyStr "About Page", pyStr "More content")]⟩ ∧
    (pyStr "00_Ignore") ∉
      (process_docx_sections
        [pyStr "# Footer (All Pages)", pyStr "# Home Page", pyStr "Some content here",
         pyStr "# About Page", pyStr "More content"]).pages.map Prod.fst := by decide

/-!  Claim C5. -/

theorem extract_hyperlinks_takeWhile : ∀ (paras : List HLPara) (m : List (PyStr × PyStr)),
    extract_hyperlinks paras m =
      (paras.takeWhile (fun p => !p.raises)).foldl (fun acc p => processPara p acc) m := by
  intro paras
  induction paras with
  | nil => intro m; rfl
  | cons p rest ih =>
    intro m
    rw [extract_hyperlinks, List.takeWhile_cons]
    by_cases hr : p.raises = true
    · rw [if_pos hr, hr]
      rfl
    · rw [if_neg hr, Bool.not_eq_true] at *
      rw [hr]
      simp only [Bool.not_false, if_pos]
      rw [List.foldl_cons]
      exact ih (processPara p m)

theorem processItems_filter_fail : ∀ (items : List HLItem) (m : List (PyStr × PyStr))
    (f : Option PyStr),
    processItems (items.filter (fun i => !isFailItem i)) m f = processItems items m f := by
  intro items
  induction items with
  | nil => intro m f; rfl
  | cons i rest ih =>
    intro m f
    cases i with
    | fail => simpa [isFailItem, processItems] using ih m f
    | skip => simpa [isFailItem, processItems] using ih m f
    | link txt url => simp only [List.filter_cons, isFailItem, Bool.not_false, if_pos,
        processItems]; exact ih _ _

/-- C5 counterexample: a paragraph-level failure on the first paragraph ends
the whole extraction (the outer handler), so the hyperlink of the second
paragraph is never collected — contradicting "an error on paragraph i does
not prevent hyperlink keys from later paragraphs from being collected". -/
theorem c5_counterexample :
    extract_hyperlinks_from_docx
      [⟨[], [], true⟩, ⟨[], [HLItem.link (pyStr "a") (pyStr "u")], false⟩] = [] ∧
    dictGet? (extract_hyperlinks_from_docx
      [⟨[], [], true⟩, ⟨[], [HLItem.link (pyStr "a") (pyStr "u")], false⟩])
      (pyStr "a") = none := by decide

/-- C5 (amended): `extract_hyperlinks_from_docx` never raises and always
returns the table accumulated so far: it equals the fold over the longest
failure-free prefix of the paragraph list (a paragraph-level error stops
inspection of all later paragraphs), while a failure on an individual
hyperlink element within a paragraph is swallowed and the remaining elements
of that paragraph are still processed. -/
theorem c5_hyperlink_extraction :
    (∀ paras : List HLPara, extract_hyperlinks_from_docx paras =
      (paras.takeWhile (fun p => !p.raises)).foldl (fun acc p => processPara p acc) []) ∧
    (∀ (p : HLPara) (m : List (PyStr × PyStr)),
      processPara ⟨p.text, p.items.filter (fun i => !isFailItem i), p.raises⟩ m =
        processPara p m) := by
  constructor
  · intro paras
    exact extract_hyperlinks_takeWhile paras []
  · intro p m
    unfold processPara
    rw [processItems_filter_fail]

/-!  Claim C7. -/

theorem navChunksGo_join : ∀ (fuel : Nat) (l : List PyStr),
    (navChunksGo fuel l).flatten = l := by
  intro fuel
  induction fuel with
  | zero => intro l; cases l <;> simp [navChunksGo]
  | succ n ih =>
    intro l
    cases l with
    | nil => rfl
    | cons c rest =>
      rw [navChunksGo, List.flatten_cons]
      rw [ih]
      exact List.take_append_drop 8 (c :: rest)

theorem navChunksGo_length : ∀ (fuel : Nat) (l : List PyStr), l.length ≤ fuel →
    (navChunksGo fuel l).length = (l.length + 7) / 8 := by
  intro fuel
  induction fuel with
  | zero =>
    intro l hf
    cases l with
    | nil => rfl
    | cons c rest => simp at hf
  | succ n ih =>
    intro l hf
    cases l with
    | nil => rfl
    | cons c rest =>
      rw [navChunksGo, List.length_cons]
      rw [ih ((c :: rest).drop 8) (by rw [List.length_drop]; simp at hf ⊢; omega)]
      rw [List.length_drop, List.length_cons]
      omega

theorem navChunksGo_le8 : ∀ (fuel : Nat) (l : List PyStr), l.length ≤ fuel →
    (navChunksGo fuel l).all (fun c => decide (c.length ≤ 8)) = true := by
  intro fuel
  induction fuel with
  | zero =>
    intro l hf
    cases l with
    | nil => rfl
    | cons c rest => simp at hf
  | succ n ih =>
    intro l hf
    cases l with
    | nil => rfl
    | cons c rest =>
      rw [navChunksGo, List.all_cons]
      rw [ih ((c :: rest).drop 8) (by rw [List.length_drop]; simp at hf ⊢; omega)]
      simp only [Bool.and_true, decide_eq_true_eq]
      rw [List.length_take]
      omega

/-!  Claim C9: supporting lemmas. -/

theorem noDoubleBlank_cons_cons (a b : PyStr) (bs : List PyStr) :
    noDoubleBlank (a :: b :: bs) =
      (!(decide (a = []) && decide (b = [])) && noDoubleBlank (b :: bs)) := rfl

theorem noDoubleBlank_append_ne {l : List PyStr} {x : PyStr}
    (h : noDoubleBlank l = true) (hx : x ≠ []) : noDoubleBlank (l ++ [x]) = true := by
  induction l with
  | nil => simp [noDoubleBlank]
  | cons a as ih =>
    cases as with
    | nil => simp [noDoubleBlank, noDoubleBlank_cons_cons, hx]
    | cons b bs =>
      rw [noDoubleBlank_cons_cons, Bool.and_eq_true] at h
      simp only [List.cons_append]
      rw [noDoubleBlank_cons_cons, Bool.and_eq_true]
      exact ⟨h.1, ih h.2⟩

theorem lastIsNonBlank_append (l : List PyStr) (x : PyStr) :
    lastIsNonBlank (l ++ [x]) = decide (x ≠ []) := by
  induction l with
  | nil => rfl
  | cons a as ih =>
    cases as with
    | nil => rfl
    | cons b bs => exact ih

theorem noDoubleBlank_append_nb {l : List PyStr} {x : PyStr}
    (h : noDoubleBlank l = true) (hl : lastIsNonBlank l = true) :
    noDoubleBlank (l ++ [x]) = true := by
  induction l with
  | nil => cases hl
  | cons a as ih =>
    cases as with
    | nil =>
      rw [lastIsNonBlank, decide_eq_true_eq] at hl
      simp [noDoubleBlank, noDoubleBlank_cons_cons, hl]
    | cons b bs =>
      rw [noDoubleBlank_cons_cons, Bool.and_eq_true] at h
      simp only [List.cons_append]
      rw [noDoubleBlank_cons_cons, Bool.and_eq_true]
      exact ⟨h.1, ih h.2 hl⟩

theorem clean_body_line_ne_nil {s : PyStr} (hs : pyStrip s = s) (hne : s ≠ []) :
    clean_body_line s ≠ [] := by
  unfold clean_body_line
  rw [hs]
  exact pyReplace_ne_nil
    (pyReplace_ne_nil (pyReplace_ne_nil hne (by decide)) (by decide)) (by decide)

theorem heading_space_fix_ne_nil {l : PyStr} (h : l ≠ []) : heading_space_fix l ≠ [] := by
  unfold heading_space_fix
  split
  · split_ifs
    · simp
    · exact h
  · exact h

theorem noDoubleBlank_bodyStep {st : ParseState} {stripped : PyStr}
    (h : noDoubleBlank st.data.body_lines = true) (hs : pyStrip stripped = stripped)
    (hne : stripped ≠ []) :
    noDoubleBlank (bodyStep st stripped).data.body_lines = true := by
  have hcl : heading_space_fix (clean_body_line stripped) ≠ [] :=
    heading_space_fix_ne_nil (clean_body_line_ne_nil hs hne)
  unfold bodyStep
  dsimp only
  split_ifs with h1 h2 h3
  · rw [Bool.and_eq_true] at h1
    rw [lastIsNonBlank_append] at h2
    simp at h2
  · rw [Bool.and_eq_true] at h1
    exact noDoubleBlank_append_ne (noDoubleBlank_append_nb h h1.2) hcl
  · rw [Bool.and_eq_true, Bool.and_eq_true] at h3
    exact noDoubleBlank_append_ne (noDoubleBlank_append_nb h h3.1.1) hcl
  · exact noDoubleBlank_append_ne h hcl

theorem bodyLines_service_line_step (st : ParseState) (s ll : PyStr) :
    (service_line_step st s ll).data.body_lines = st.data.body_lines := by
  unfold service_line_step
  split_ifs <;> rfl

theorem bodyLines_service_exit_adjust (st : ParseState) (s ll : PyStr) :
    (service_exit_adjust st s ll).data.body_lines = st.data.body_lines := by
  unfold service_exit_adjust
  split_ifs <;> rfl

theorem service_exit_adjust_of_false {st : ParseState} {s ll : PyStr}
    (h : st.is_service_box = false) : service_exit_adjust st s ll = st := by
  unfold service_exit_adjust
  rw [if_neg]
  simp [h]

theorem noDoubleBlank_parse_line_tags {m : List (PyStr × PyStr)} {slug : PyStr}
    {st : ParseState} {stripped ll : PyStr}
    (h : noDoubleBlank st.data.body_lines = true) (hs : pyStrip stripped = stripped)
    (hne : stripped ≠ []) :
    noDoubleBlank (parse_line_tags m slug st stripped ll).data.body_lines = true := by
  unfold parse_line_tags
  split_ifs with h1 h2 h3 h4
  · split
    · split_ifs <;> exact h
    · exact h
  · split
    · split_ifs <;> exact h
    · exact h
  · exact h
  · split
    · split_ifs <;> exact h
    · exact h
  · exact noDoubleBlank_bodyStep h hs hne

theorem noDoubleBlank_parse_line {m : List (PyStr × PyStr)} {slug : PyStr}
    (st : ParseState) (line : PyStr)
    (h : noDoubleBlank st.data.body_lines = true) :
    noDoubleBlank (parse_line m slug st line).data.body_lines = true := by
  unfold parse_line
  dsimp only
  split_ifs with h1 h2 h3 h4 h5 h6
  all_goals try exact h
  all_goals try (rw [bodyLines_service_exit_adjust]; exact h)
  all_goals try (rw [bodyLines_service_line_step, bodyLines_service_exit_adjust]; exact h)
  all_goals try exact noDoubleBlank_parse_line_tags (by dsimp only; rw [bodyLines_service_exit_adjust]; exact h) (pyStrip_idem line) (by assumption)
  all_goals try exact noDoubleBlank_parse_line_tags (by rw [bodyLines_service_exit_adjust]; exact h) (pyStrip_idem line) (by assumption)
  all_goals (simp only [Bool.and_eq_true] at h2; exact noDoubleBlank_append_nb h h2.2)

theorem noDoubleBlank_foldl {m : List (PyStr × PyStr)} {slug : PyStr} :
    ∀ (ls : List PyStr) (st : ParseState), noDoubleBlank st.data.body_lines = true →
      noDoubleBlank (ls.foldl (parse_line m slug) st).data.body_lines = true := by
  intro ls
  induction ls with
  | nil => intro st h; exact h
  | cons l rest ih =>
    intro st h
    exact ih _ (noDoubleBlank_parse_line st l h)

/-- C9: the body-line list produced by `parse_page_content` never contains
two consecutive empty strings, both in the final result and after any prefix
of the line-processing loop. -/
theorem c9_no_double_blank : ∀ (raw title : PyStr) (q0 : List ImageTask)
    (m : List (PyStr × PyStr)),
    noDoubleBlank (parse_page_content raw title q0 m).data.body_lines = true ∧
    ∀ n : Nat, noDoubleBlank (((pySplit (ch '\n') raw).take n).foldl
      (parse_line m (page_slug_of title)) (parse_init title q0)).data.body_lines = true := by
  intro raw title q0 m
  exact ⟨noDoubleBlank_foldl _ _ rfl, fun n => noDoubleBlank_foldl _ _ rfl⟩

/-- C7: `generate_nav_yaml` batches every parent's children into chunks of
at most 8, in order, producing `ceil(n/8)` dropdown columns; a parent with
17 children yields exactly 3 batches of sizes 8, 8, 1. -/
theorem c7_nav_chunking :
    (∀ children : List PyStr, (nav_chunks children).flatten = children) ∧
    (∀ children : List PyStr, (nav_chunks children).length = (children.length + 7) / 8) ∧
    (∀ children : List PyStr,
      (nav_chunks children).all (fun c => decide (c.length ≤ 8)) = true) ∧
    (generate_nav_entries (pyStr "Services" :: List.replicate 17 (pyStr "- x"))).map
      (fun e => e.dropdown.map List.length) = [[8, 8, 1]] :=
  ⟨fun l => navChunksGo_join _ l, fun l => navChunksGo_length _ l le_rfl,
   fun l => navChunksGo_le8 _ l le_rfl, by decide⟩

/-!  Claim C10: supporting lemmas. -/

theorem navAddChild_keys : ∀ (m : List (PyStr × List PyStr)) (k c : PyStr),
    (navAddChild m k c).map Prod.fst = m.map Prod.fst := by
  intro m
  induction m with
  | nil => intro k c; rfl
  | cons kv rest ih =>
    intro k c
    cases kv with
    | mk k0 cs =>
      rw [navAddChild]
      by_cases hk : k0 = k
      · rw [if_pos hk]; rfl
      · rw [if_neg hk, List.map_cons, List.map_cons, ih]

theorem navAddParent_keys {m : List (PyStr × List PyStr)} {k k1 : PyStr}
    (h : k1 ∈ (navAddParent m k).map Prod.fst) :
    k1 ∈ m.map Prod.fst ∨ k1 = k := by
  unfold navAddParent at h
  split_ifs at h
  · exact Or.inl h
  · rw [List.map_append] at h
    rcases List.mem_append.mp h with h2 | h2
    · exact Or.inl h2
    · rcases List.mem_singleton.mp h2 with rfl
      exact Or.inr rfl

theorem navGo_keys : ∀ (ls : List PyStr) (parent : Option PyStr)
    (acc : List (PyStr × List PyStr)) (k : PyStr),
    k ∈ (navGo ls parent acc).map Prod.fst →
    k ∈ acc.map Prod.fst ∨
      ∃ l ∈ ls, isChildLine l = false ∧ k = clean_nav_text (pyStrip l) := by
  intro ls
  induction ls with
  | nil =>
    intro parent acc k h
    exact Or.inl h
  | cons line rest ih =>
    intro parent acc k h
    rw [navGo] at h
    dsimp only at h
    by_cases h1 : pyStrip line = [] ∨ strInfix (pyStr "Dev Note") (pyStrip line) = true
    · rw [if_pos h1] at h
      rcases ih _ _ _ h with h4 | ⟨l, hl, h5⟩
      · exact Or.inl h4
      · exact Or.inr ⟨l, List.mem_cons_of_mem line hl, h5⟩
    · rw [if_neg h1] at h
      by_cases h2 : clean_nav_text (pyStrip line) = []
      · rw [if_pos h2] at h
        rcases ih _ _ _ h with h4 | ⟨l, hl, h5⟩
        · exact Or.inl h4
        · exact Or.inr ⟨l, List.mem_cons_of_mem line hl, h5⟩
      · rw [if_neg h2] at h
        by_cases h3 : nav_list_pattern (pyStrip line) = true
        · rw [if_pos h3] at h
          cases parent with
          | some p =>
            dsimp only at h
            rcases ih _ _ _ h with h4 | ⟨l, hl, h5⟩
            · rw [navAddChild_keys] at h4
              exact Or.inl h4
            · exact Or.inr ⟨l, List.mem_cons_of_mem line hl, h5⟩
          | none =>
            dsimp only at h
            rcases ih _ _ _ h with h4 | ⟨l, hl, h5⟩
            · exact Or.inl h4
            · exact Or.inr ⟨l, List.mem_cons_of_mem line hl, h5⟩
        · rw [if_neg h3] at h
          rcases ih _ _ _ h with h4 | ⟨l, hl, h5⟩
          · rcases navAddParent_keys h4 with h5 | h5
            · exact Or.inl h5
            · refine Or.inr ⟨line, List.mem_cons_self _ _, ?_, h5⟩
              unfold isChildLine
              rw [Bool.eq_false_iff]
              exact h3
          · exact Or.inr ⟨l, List.mem_cons_of_mem line hl, h5⟩

/-- C10: a navigation child line seen before any parent line is silently
dropped — it contributes nothing to the structure — and every parent key of
the resulting tree comes from a non-child line of the input, so children
only ever attach to a previously-seen parent. -/
theorem c10_orphan_children_dropped :
    (∀ (line : PyStr) (rest : List PyStr), isChildLine line = true →
      nav_structure (line :: rest) = nav_structure rest) ∧
    (∀ (lines : List PyStr) (pc : PyStr × List PyStr), pc ∈ nav_structure lines →
      ∃ l ∈ lines, isChildLine l = false ∧ pc.1 = clean_nav_text (pyStrip l)) := by
  constructor
  · intro line rest hchild
    unfold isChildLine at hchild
    unfold nav_structure
    rw [navGo]
    dsimp only
    by_cases h1 : pyStrip line = [] ∨ strInfix (pyStr "Dev Note") (pyStrip line) = true
    · rw [if_pos h1]
    · rw [if_neg h1]
      by_cases h2 : clean_nav_text (pyStrip line) = []
      · rw [if_pos h2]
      · rw [if_neg h2, if_pos hchild]
  · intro lines pc hpc
    rcases navGo_keys lines none [] pc.1 (List.mem_map_of_mem Prod.fst hpc) with h | h
    · cases h
    · exact h

/-- C10 witness: a concrete orphan child line is dropped, through the first
part of the theorem. -/
theorem c10_witness :
    nav_structure [pyStr "- Orphan", pyStr "Parent"] = nav_structure [pyStr "Parent"] :=
  c10_orphan_children_dropped.1 (pyStr "- Orphan") [pyStr "Parent"] (by decide)

/-!  Claim C8: supporting lemmas. -/

theorem dictGet?_mem : ∀ (m : List (PyStr × PyStr)) (k v : PyStr),
    dictGet? m k = some v → (k, v) ∈ m := by
  intro m
  induction m with
  | nil => intro k v h; cases h
  | cons kv rest ih =>
    intro k v h
    cases kv with
    | mk k0 v0 =>
      rw [dictGet?] at h
      by_cases hk : k0 = k
      · rw [if_pos hk] at h
        injection h with hv
        subst hk; subst hv
        exact List.mem_cons_self _ _
      · rw [if_neg hk] at h
        exact List.mem_cons_of_mem _ (ih k v h)

theorem dictFindSub?_spec : ∀ (m : List (PyStr × PyStr)) (u : PyStr) (kv : PyStr × PyStr),
    dictFindSub? m u = some kv →
    kv ∈ m ∧ (strInfix u kv.1 = true ∨ strInfix kv.1 u = true) := by
  intro m
  induction m with
  | nil => intro u kv h; cases h
  | cons kv0 rest ih =>
    intro u kv h
    cases kv0 with
    | mk k0 v0 =>
      rw [dictFindSub?] at h
      by_cases hk : (strInfix u k0 || strInfix k0 u) = true
      · rw [if_pos hk] at h
        injection h with hv
        subst hv
        rw [Bool.or_eq_true] at hk
        exact ⟨List.mem_cons_self _ _, hk⟩
      · rw [if_neg hk] at h
        obtain ⟨h1, h2⟩ := ih u kv h
        exact ⟨List.mem_cons_of_mem _ h1, h2⟩

theorem strPre_https_imp {l : List Nat} (h : strPre (pyStr "https") l = true) :
    strPre (pyStr "http") l = true := by
  obtain ⟨t, rfl⟩ := strPre_iff.mp h
  exact strPre_iff.mpr ⟨ch 's' :: t, rfl⟩

theorem resolve_lookup_spec {m : List (PyStr × PyStr)} {u : PyStr}
    (h : (dictGet? m u).isSome = true ∨ (dictFindSub? m u).isSome = true) :
    ∃ kv, kv ∈ m ∧ resolve_lookup m u = kv.2 ∧
      (kv.1 = u ∨ strInfix u kv.1 = true ∨ strInfix kv.1 u = true) := by
  unfold resolve_lookup
  cases hg : dictGet? m u with
  | some v =>
    exact ⟨(u, v), dictGet?_mem m u v hg, rfl, Or.inl rfl⟩
  | none =>
    cases hs : dictFindSub? m u with
    | some kv =>
      obtain ⟨h1, h2⟩ := dictFindSub?_spec m u kv hs
      exact ⟨kv, h1, rfl, Or.inr h2⟩
    | none =>
      rw [hg, hs] at h
      rcases h with h | h <;> cases h

/-- C8: for a `[hero image]` line processed in body mode (outside the
service box), whose extracted value is not itself a URL, if the stripped
value matches a key of the hyperlink table exactly or by substring in either
direction, then the task pushed onto the image queue carries the table's
value for that key — not the original literal text — and the page slug as
its filename. -/
theorem c8_hero_resolution : ∀ (st : ParseState) (line : PyStr)
    (m : List (PyStr × PyStr)) (slug v : PyStr),
    st.is_service_box = false →
    st.is_body_started = true →
    strInfix (pyStr "how can we help") (line_lower_of (pyStrip line)) = false →
    strInfix (pyStr "[hero image]") (line_lower_of (pyStrip line)) = true →
    extract_tag_value (pyStrip line) (pyStr "hero image") true = some v →
    v ≠ [] →
    strPre (pyStr "http") (pyStrip v) = false →
    ((dictGet? m (pyStrip v)).isSome = true ∨ (dictFindSub? m (pyStrip v)).isSome = true) →
    (parse_line m slug st line).image_queue =
      st.image_queue ++ [⟨resolve_lookup m (pyStrip v), slug⟩] ∧
    ∃ kv, kv ∈ m ∧ resolve_lookup m (pyStrip v) = kv.2 ∧
      (kv.1 = pyStrip v ∨ strInfix (pyStrip v) kv.1 = true ∨
        strInfix kv.1 (pyStrip v) = true) := by
  intro st line m slug v h1 h2 h3 h4 h5 h6 h7 h8
  have hne : ¬ (pyStrip line = []) := by
    intro he
    rw [he] at h4
    exact absurd h4 (by decide)
  have h7s : strPre (pyStr "https") (pyStrip v) = false := by
    cases hh : strPre (pyStr "https") (pyStrip v) with
    | false => rfl
    | true =>
      rw [strPre_https_imp hh] at h7
      exact Bool.noConfusion h7
  have hherofinal : hero_final_url m v = resolve_lookup m (pyStrip v) := by
    unfold hero_final_url
    dsimp only
    rw [if_neg (by rw [h7, h7s]; simp)]
  have hq : parse_line m slug st line =
      { st with image_queue := st.image_queue ++
          [⟨resolve_lookup m (pyStrip v), slug⟩] } := by
    unfold parse_line
    dsimp only
    rw [if_neg hne]
    rw [if_neg (by simp [h3])]
    rw [service_exit_adjust_of_false h1]
    rw [if_neg (by simp [h1])]
    rw [if_neg (by simp [h2])]
    rw [if_neg (by simp [h2])]
    unfold parse_line_tags
    dsimp only
    rw [if_pos h4, h5]
    dsimp only
    rw [if_pos h6, hherofinal]
  exact ⟨by rw [hq], resolve_lookup_spec h8⟩

/-- C8 witness: a concrete hero line resolved through the table by substring
match, through the theorem. -/
theorem c8_witness :
    (parse_line [(pyStr "kitchen remodel pro", pyStr "http://img.example/k.jpg")]
      (pyStr "home") { parse_init (pyStr "Home") [] with is_body_started := true }
      (pyStr "[hero image] kitchen remodel")).image_queue =
      [⟨pyStr "http://img.example/k.jpg", pyStr "home"⟩] := by
  have h := (c8_hero_resolution
    { parse_init (pyStr "Home") [] with is_body_started := true }
    (pyStr "[hero image] kitchen remodel")
    [(pyStr "kitchen remodel pro", pyStr "http://img.example/k.jpg")]
    (pyStr "home") (pyStr "kitchen remodel")
    (by decide) (by decide) (by decide) (by decide) (by decide) (by decide) (by decide)
    (Or.inr (by decide))).1
  rw [h]
  decide

end DocxParser
